import Mathlib

/-!
Verification of the bloat-hunter disk-space reclamation utility.

This file is a shallow embedding, in Lean 4, of the algorithmic core of the
repository: the size-string parser (`core/scanner.py`), the pattern
classification engine (`patterns/base.py`, `patterns/*.py`,
`core/scanner.py`), the protected-path guard (`safety/protected.py`),
the tree walkers and scan pipelines (`core/scanner.py`,
`core/cache_scanner.py`), the duplicate detector (`core/duplicates.py`)
and the parallel-map helper (`core/parallel.py`).

Modelling conventions:
- Python strings are modelled as `List Char`; character classification is
  done on `Char.toNat` code points (ASCII-faithful; exotic Unicode
  behaviour of `str.upper`/`str.strip` is outside the model).
- Python `float` values are modelled exactly: a decimal literal is parsed
  to an exact fraction (`Frac`, an unnormalised `ℤ/ℕ` pair) and converted
  to an IEEE-754 binary64 value by correct rounding to a 53-bit
  significand with round-to-nearest, ties-to-even (`roundFrac`).  Overflow
  to infinity and subnormal flushing are outside the modelled range; every
  theorem below stays well inside the normal range.  Python `float()`
  extras (underscore separators, `inf`/`nan` spellings) are not modelled.
- Filesystem paths are modelled as lists of components of an absolute
  POSIX path; the filesystem itself is a tree value (`FSNode`) or, where
  the code merely probes paths, an oracle function.
- Exceptions are modelled with `Except`/`Option`.
-/

/-! ### Python string primitives (`str.strip`, `str.upper`, `str.endswith`) -/

/-- Whitespace test used by Python's `str.strip()` (ASCII subset). -/
def pyIsSpace (c : Char) : Bool :=
  c.toNat = 32 || c.toNat = 9 || c.toNat = 10 || c.toNat = 13 || c.toNat = 11 || c.toNat = 12

/-- ASCII decimal digit test (`'0'..'9'`). -/
def isDigitC (c : Char) : Bool := 48 ≤ c.toNat && c.toNat ≤ 57

/-- Numeric value of an ASCII digit character. -/
def digitVal (c : Char) : ℕ := c.toNat - 48

/-- Python `str.strip()`: drop whitespace from both ends. -/
def pyStrip (l : List Char) : List Char :=
  ((l.dropWhile pyIsSpace).reverse.dropWhile pyIsSpace).reverse

/-- Uppercase one character (ASCII range of Python's `str.upper`). -/
def pyUpperChar (c : Char) : Char :=
  if 97 ≤ c.toNat && c.toNat ≤ 122 then Char.ofNat (c.toNat - 32) else c

/-- Python `str.upper()` over the ASCII range. -/
def pyUpper (l : List Char) : List Char := l.map pyUpperChar

/-! ### Exact model of Python floats

`core/scanner.py` converts size strings with `float(...)`.  A successfully
parsed decimal literal denotes the exact rational `±mant · 10^exp10`
(`PyDec`); `float()` then returns the nearest IEEE binary64 value.  We
model binary64 values exactly as unnormalised fractions and implement the
correct rounding with pure integer arithmetic so that everything reduces
in the kernel. -/

/-- Exact value of a parsed Python decimal literal: `±mant · 10^exp10`. -/
structure PyDec where
  neg : Bool
  mant : ℕ
  exp10 : ℤ
deriving DecidableEq, Repr

/-- Unnormalised fraction `num / den`; every constructor below keeps `den ≠ 0`. -/
structure Frac where
  num : ℤ
  den : ℕ
deriving DecidableEq, Repr

/-- Accumulate decimal digit characters into a natural number. -/
def digitsToNat (l : List Char) : ℕ := l.foldl (fun a c => 10 * a + digitVal c) 0

/-- Strip an optional leading sign, returning (isNegative, rest). -/
def pySign : List Char → Bool × List Char
  | [] => (false, [])
  | c :: t => if c = '-' then (true, t) else if c = '+' then (false, t) else (false, c :: t)

/-- Parser for the numeric core of Python's `float()` grammar:
`[sign] (digits [. digits] | . digits) [(e|E) [sign] digits]`.
Returns `none` exactly when Python's `float()` raises `ValueError`
(underscore separators and `inf`/`nan` spellings are outside the model). -/
def pyFloatLit (l : List Char) : Option PyDec :=
  let sl := pySign l
  let neg := sl.1
  let l1 := sl.2
  let ip := l1.takeWhile isDigitC
  let r1 := l1.dropWhile isDigitC
  let fr : List Char × List Char :=
    match r1 with
    | '.' :: t => (t.takeWhile isDigitC, t.dropWhile isDigitC)
    | _ => ([], r1)
  let fp := fr.1
  let r2 := fr.2
  if ip.isEmpty && fp.isEmpty then none
  else
    let mant := digitsToNat (ip ++ fp)
    let e0 : ℤ := -(fp.length : ℤ)
    match r2 with
    | [] => some ⟨neg, mant, e0⟩
    | c :: t =>
      if c = 'E' || c = 'e' then
        let st := pySign t
        let ed := st.2.takeWhile isDigitC
        let rest := st.2.dropWhile isDigitC
        if ed.isEmpty || !rest.isEmpty then none
        else
          let e1 : ℤ := if st.1 then -(digitsToNat ed : ℤ) else (digitsToNat ed : ℤ)
          some ⟨neg, mant, e0 + e1⟩
      else none

/-- Exact rational value of a decimal literal, as an unnormalised fraction. -/
def PyDec.toFrac (d : PyDec) : Frac :=
  let s : ℤ := if d.neg then -1 else 1
  if 0 ≤ d.exp10 then ⟨s * d.mant * 10 ^ d.exp10.toNat, 1⟩
  else ⟨s * d.mant, 10 ^ (-d.exp10).toNat⟩

/-- Fuel-driven floor of the base-2 logarithm (structural recursion so the
kernel can evaluate it on literals). -/
def lg2Aux : ℕ → ℕ → ℕ
  | 0, _ => 0
  | fuel + 1, n => if n < 2 then 0 else lg2Aux fuel (n / 2) + 1

/-- Floor of the base-2 logarithm of a positive natural (`lg2 0 = 0`). -/
def lg2 (n : ℕ) : ℕ := lg2Aux n n

/-- Smallest `d` with `b ≤ a * 2^d`, computed by doubling `a` (fuel-driven). -/
def findScaleAux : ℕ → ℕ → ℕ → ℕ
  | 0, _, _ => 0
  | fuel + 1, a, b => if b ≤ a then 0 else findScaleAux fuel (2 * a) b + 1

/-- Floor of the base-2 logarithm of the positive fraction `a / b`. -/
def fracLog2 (a b : ℕ) : ℤ :=
  if b ≤ a then (lg2 (a / b) : ℤ) else -(findScaleAux b a b : ℤ)

/-- Round the nonnegative fraction `a / b` to the nearest integer,
ties to even. -/
def rneFrac (a b : ℕ) : ℕ :=
  let f := a / b
  let r := a % b
  if 2 * r < b then f
  else if b < 2 * r then f + 1
  else if f % 2 = 0 then f else f + 1

/-- Correctly round the positive fraction `a / b` to a binary64 value
(53-bit significand, round-to-nearest, ties-to-even; normal range). -/
def roundPosFrac (a b : ℕ) : Frac :=
  let e : ℤ := fracLog2 a b - 52
  if 0 ≤ e then
    ⟨(rneFrac a (b * 2 ^ e.toNat) : ℤ) * 2 ^ e.toNat, 1⟩
  else
    ⟨(rneFrac (a * 2 ^ (-e).toNat) b : ℤ), 2 ^ (-e).toNat⟩

/-- Correctly round a fraction to a binary64 value (model of what Python's
`float()` returns for the exact value of a parsed literal, and of the
rounding performed by a float multiplication). -/
def roundFrac (f : Frac) : Frac :=
  if f.num = 0 then ⟨0, 1⟩
  else if f.num < 0 then
    let p := roundPosFrac f.num.natAbs f.den
    ⟨-p.num, p.den⟩
  else roundPosFrac f.num.natAbs f.den

/-- Multiply a fraction by a natural number (exact; the float rounding of
Python's `value * multiplier` is applied separately via `roundFrac`). -/
def Frac.mulNat (f : Frac) (m : ℕ) : Frac := ⟨f.num * m, f.den⟩

/-- Python `int()` applied to a float value: truncation toward zero. -/
def truncFrac (f : Frac) : ℤ := Int.sign f.num * ((f.num.natAbs / f.den : ℕ) : ℤ)

/-! ### `parse_size` (`core/scanner.py`, lines 68-109) -/

/-- Unit table of `parse_size`, in source order: longer units first so that
`"KB"` is not shadowed by `"B"`. -/
def UNITS : List (List Char × ℕ) :=
  [(['T', 'B'], 1024 * 1024 * 1024 * 1024),
   (['G', 'B'], 1024 * 1024 * 1024),
   (['M', 'B'], 1024 * 1024),
   (['K', 'B'], 1024),
   (['B'], 1)]

/-- First unit of `units` that is a suffix of `s`, paired with the prefix of
`s` that remains after removing it (`size_str[: -len(unit)]`). -/
def findUnit (s : List Char) : List (List Char × ℕ) → Option (List Char × ℕ)
  | [] => none
  | (u, m) :: rest =>
    if u.isSuffixOf s then some (s.take (s.length - u.length), m)
    else findUnit s rest

/-- Embedding of `parse_size`: strip and upper-case the input, match unit
suffixes longest-first, parse the numeric part as a Python float, reject
negative values, and truncate `value * multiplier` (a float product, hence
rounded) to an integer.  `Except.error` carries the `ValueError` message. -/
def parse_size (input : String) : Except String ℤ :=
  let s := pyUpper (pyStrip input.data)
  match findUnit s UNITS with
  | some (numPart, mult) =>
    match pyFloatLit numPart with
    | none => .error ("Invalid size value: " ++ String.mk s)
    | some d =>
      let v := roundFrac d.toFrac
      if v.num < 0 then .error ("Size cannot be negative: " ++ String.mk s)
      else .ok (truncFrac (roundFrac (v.mulNat mult)))
  | none =>
    match pyFloatLit s with
    | none => .error ("Invalid size string: " ++ String.mk s)
    | some d =>
      let v := roundFrac d.toFrac
      if v.num < 0 then .error ("Size cannot be negative: " ++ String.mk s)
      else .ok (truncFrac v)

/-- Fuel-driven decimal rendering (structural recursion so the kernel can
evaluate it on literals). -/
def decimalReprAux : ℕ → ℕ → List Char
  | 0, _ => []
  | fuel + 1, n =>
    if n < 10 then [Nat.digitChar n]
    else decimalReprAux fuel (n / 10) ++ [Nat.digitChar (n % 10)]

/-- Canonical decimal numeral of a natural number (model of Python's
`str(n)` for nonnegative integers). -/
def decimalRepr (n : ℕ) : List Char := decimalReprAux (n + 1) n

deriving instance DecidableEq for Except

/-! ### Paths and bloat patterns (`patterns/base.py`)

Filesystem paths are modelled as the component lists of absolute POSIX
paths (so `["usr", "local"]` stands for `/usr/local`, and `[]` for `/`).
Regular-expression matching (Python's `re.match`, which anchors at the
start of the string) is kept abstract as a boolean oracle `rm`; the
pattern-level `validator` callbacks probe the filesystem, which is kept
abstract as an existence oracle `ex`. -/

/-- Components of an absolute POSIX path. -/
abbrev DirPath := List String

/-- Final component of a path (Python `path.name`; `""` for the root). -/
def dirName (p : DirPath) : String := p.getLastD ""

/-- Embedding of `BloatPattern` (`patterns/base.py`): a declarative
classification rule. -/
structure BloatPattern where
  name : String
  category : String
  patterns : List String
  description : String
  safe_level : String := "safe"
  min_size : ℕ := 0
  validator : Option (DirPath → Bool) := none

/-- Embedding of `BloatPattern.matches`: iterate the name matchers in
declaration order; a matcher starting with `"re:"` is a regular expression
tried with `re.match` (the oracle `rm`, anchored at the start of the
name), any other matcher requires exact string equality; on a hit the
optional validator must also accept the path. -/
def BloatPattern.matches (rm : String → String → Bool) (self : BloatPattern)
    (name : String) (path : DirPath) : Bool :=
  self.patterns.any fun pat =>
    (if pat.data.take 3 = ['r', 'e', ':'] then rm (String.mk (pat.data.drop 3)) name
     else pat == name) &&
    (match self.validator with
     | none => true
     | some v => v path)

/-- Embedding of `match_patterns` (`core/scanner.py`, lines 185-205):
return the first pattern of the list that matches `path.name`, else none. -/
def match_patterns (rm : String → String → Bool) (path : DirPath)
    (patterns : List BloatPattern) : Option BloatPattern :=
  patterns.find? fun pattern => pattern.matches rm (dirName path) path

/-! ### Pattern registry (`patterns/cache.py`, `patterns/dev.py`,
`patterns/system.py`, `patterns/browser_cache.py`)

The validators `_is_venv` and `_is_dist` probe the filesystem; they take
the existence oracle `ex` explicitly, so the registries built from them
are parameterised by `ex`. -/

/-- Embedding of `_is_venv` (`patterns/dev.py`): only the first three
indicators are consulted (`indicators[:3]` in the source). -/
def _is_venv (ex : DirPath → Bool) (p : DirPath) : Bool :=
  ex (p ++ ["pyvenv.cfg"]) || ex (p ++ ["bin", "activate"]) ||
    ex (p ++ ["Scripts", "activate.bat"])

/-- Embedding of `_is_dist` (`patterns/dev.py`). -/
def _is_dist (ex : DirPath → Bool) (p : DirPath) : Bool :=
  ex (p.dropLast ++ ["setup.py"]) || ex (p.dropLast ++ ["pyproject.toml"])

/-- Embedding of `CACHE_PATTERNS` (`patterns/cache.py`), in declaration order. -/
def CACHE_PATTERNS : List BloatPattern :=
  [{ name := "__pycache__", category := "Python", patterns := ["__pycache__"],
     description := "Python bytecode cache" },
   { name := ".pytest_cache", category := "Python", patterns := [".pytest_cache"],
     description := "Pytest cache directory" },
   { name := ".mypy_cache", category := "Python", patterns := [".mypy_cache"],
     description := "Mypy type checker cache" },
   { name := ".ruff_cache", category := "Python", patterns := [".ruff_cache"],
     description := "Ruff linter cache" },
   { name := ".tox", category := "Python", patterns := [".tox"],
     description := "Tox test environments" },
   { name := ".nox", category := "Python", patterns := [".nox"],
     description := "Nox test environments" },
   { name := ".coverage", category := "Python", patterns := ["htmlcov", ".coverage"],
     description := "Coverage reports" },
   { name := "node_modules", category := "Node.js", patterns := ["node_modules"],
     description := "Node.js dependencies (reinstallable with npm/yarn)",
     min_size := 1024 * 1024 },
   { name := ".next", category := "Node.js", patterns := [".next"],
     description := "Next.js build cache" },
   { name := ".nuxt", category := "Node.js", patterns := [".nuxt"],
     description := "Nuxt.js build cache" },
   { name := ".parcel-cache", category := "Node.js", patterns := [".parcel-cache"],
     description := "Parcel bundler cache" },
   { name := ".turbo", category := "Node.js", patterns := [".turbo"],
     description := "Turborepo cache" },
   { name := "target", category := "Rust", patterns := ["target"],
     description := "Rust/Cargo build artifacts", safe_level := "caution",
     min_size := 10 * 1024 * 1024 },
   { name := ".gradle", category := "Java", patterns := [".gradle"],
     description := "Gradle build cache" },
   { name := "build", category := "Build", patterns := ["build"],
     description := "Build output directory", safe_level := "caution" },
   { name := ".cache", category := "Generic", patterns := [".cache"],
     description := "Generic cache directory" },
   { name := "tmp", category := "Generic", patterns := ["tmp", "temp", ".tmp"],
     description := "Temporary files" }]

/-- Embedding of `DEV_PATTERNS` (`patterns/dev.py`), in declaration order. -/
def DEV_PATTERNS (ex : DirPath → Bool) : List BloatPattern :=
  [{ name := ".venv", category := "Python",
     patterns := [".venv", "venv", ".virtualenv", "virtualenv", "env"],
     description := "Python virtual environment", safe_level := "caution",
     validator := some (_is_venv ex) },
   { name := ".eggs", category := "Python", patterns := [".eggs"],
     description := "Python egg files" },
   { name := "*.egg-info", category := "Python", patterns := ["re:.*\\.egg-info$"],
     description := "Python package metadata" },
   { name := "dist", category := "Build", patterns := ["dist"],
     description := "Distribution files", safe_level := "caution",
     validator := some (_is_dist ex) },
   { name := ".idea", category := "IDE", patterns := [".idea"],
     description := "JetBrains IDE settings", safe_level := "caution" },
   { name := ".vscode", category := "IDE", patterns := [".vscode"],
     description := "VS Code settings", safe_level := "caution" },
   { name := "docs/_build", category := "Docs", patterns := ["_build"],
     description := "Sphinx documentation build" },
   { name := "site", category := "Docs", patterns := ["site"],
     description := "MkDocs build output", safe_level := "caution" },
   { name := "logs", category := "Logs", patterns := ["logs", "log"],
     description := "Log directories", safe_level := "caution" },
   { name := "vendor", category := "Vendor", patterns := ["vendor", "vendors"],
     description := "Vendored dependencies", safe_level := "caution" },
   { name := ".docker", category := "Docker", patterns := [".docker"],
     description := "Docker build cache" },
   { name := ".terraform", category := "IaC", patterns := [".terraform"],
     description := "Terraform provider cache" }]

/-- Embedding of `SYSTEM_PATTERNS` (`patterns/system.py`), in declaration order. -/
def SYSTEM_PATTERNS : List BloatPattern :=
  [{ name := ".DS_Store", category := "System", patterns := [".DS_Store"],
     description := "macOS folder metadata" },
   { name := "__MACOSX", category := "System", patterns := ["__MACOSX"],
     description := "macOS resource fork data" },
   { name := "Thumbs.db", category := "System", patterns := ["Thumbs.db", "thumbs.db"],
     description := "Windows thumbnail cache" },
   { name := "desktop.ini", category := "System", patterns := ["desktop.ini"],
     description := "Windows folder settings" },
   { name := ".git", category := "VCS", patterns := [".git"],
     description := "Git repository (use git gc to clean)", safe_level := "dangerous" },
   { name := ".svn", category := "VCS", patterns := [".svn"],
     description := "Subversion metadata", safe_level := "dangerous" },
   { name := ".hg", category := "VCS", patterns := [".hg"],
     description := "Mercurial metadata", safe_level := "dangerous" },
   { name := "*.bak", category := "Backup", patterns := ["re:.*\\.bak$", "re:.*~$"],
     description := "Backup files", safe_level := "caution" },
   { name := "crash", category := "System",
     patterns := ["CrashDumps", "crash_dumps", "dumps"],
     description := "Crash dump files" }]

/-- Embedding of `get_all_patterns` (`patterns/__init__.py`). -/
def get_all_patterns (ex : DirPath → Bool) : List BloatPattern :=
  CACHE_PATTERNS ++ DEV_PATTERNS ex ++ SYSTEM_PATTERNS

/-! ### Protected paths (`safety/protected.py`)

The source tables are Python sets used only for membership tests and
result-indifferent any-match loops, so modelling them as lists is
faithful.  String comparisons are embedded verbatim on rendered path
strings with `os.sep = "/"` (the POSIX model). -/

/-- Embedding of `PROTECTED_PATTERNS` (`safety/protected.py`). -/
def PROTECTED_PATTERNS : List String :=
  ["/", "/bin", "/boot", "/dev", "/etc", "/lib", "/lib64", "/opt", "/proc",
   "/root", "/run", "/sbin", "/srv", "/sys", "/tmp", "/usr", "/var",
   "C:\\", "C:\\Windows", "C:\\Program Files", "C:\\Program Files (x86)",
   "C:\\ProgramData",
   "/mnt/c/Windows", "/mnt/c/Program Files", "/mnt/c/Program Files (x86)",
   "/mnt/c/ProgramData",
   "/System", "/Library", "/Applications", "/private",
   "Documents", "Desktop", "Downloads", "Pictures", "Music", "Videos",
   ".ssh", ".gnupg", ".config"]

/-- Embedding of `PROTECTED_NAMES` (`safety/protected.py`). -/
def PROTECTED_NAMES : List String :=
  [".ssh", ".gnupg", ".gpg", ".aws", ".kube", ".docker", "credentials",
   "secrets", ".password-store", ".local/share/keyrings"]

/-- Embedding of `PROTECTED_INDICATORS` (`safety/protected.py`). -/
def PROTECTED_INDICATORS : List String :=
  [".git", "package.json", "pyproject.toml", "Cargo.toml", "go.mod",
   "pom.xml", "build.gradle"]

/-- Render a component path as its absolute POSIX string (`str(path.absolute())`). -/
def pathStr (p : DirPath) : List Char := '/' :: (String.intercalate "/" p).data

/-- Lowercase one character (ASCII range of Python's `str.lower`). -/
def pyLowerChar (c : Char) : Char :=
  if 65 ≤ c.toNat && c.toNat ≤ 90 then Char.ofNat (c.toNat + 32) else c

/-- Python `str.lower()` over the ASCII range. -/
def pyLower (l : List Char) : List Char := l.map pyLowerChar

/-- Test of one `PROTECTED_PATTERNS` entry inside `is_protected_path`:
`path_lower == protected_lower or path_lower.startswith(protected_lower + os.sep)`. -/
def matchesProtected (p : DirPath) (prot : String) : Bool :=
  let pl := pyLower (pathStr p)
  let tl := pyLower prot.data
  pl == tl || (tl ++ ['/']).isPrefixOf pl

/-- Cache-directory allowlist of `_is_cache_subdirectory` (`safety/protected.py`). -/
def cache_names : List String :=
  ["__pycache__", ".pytest_cache", ".mypy_cache", ".ruff_cache",
   "node_modules", ".next", ".nuxt", ".cache", ".parcel-cache", ".tox", ".nox"]

/-- Embedding of `_is_cache_subdirectory` (`safety/protected.py`, lines 143-158). -/
def _is_cache_subdirectory (p : DirPath) : Bool := cache_names.contains (dirName p)

/-- System-directory rule of `is_protected_path` (its first loop, lines
103-109): the path matches a `PROTECTED_PATTERNS` entry and is not itself a
known cache directory. -/
def systemDirRule (p : DirPath) : Bool :=
  PROTECTED_PATTERNS.any fun prot => matchesProtected p prot && !_is_cache_subdirectory p

/-- Operating system reported by `platform.system()`. -/
inductive OSKind where
  | linux
  | windows
  | darwin
deriving DecidableEq, Repr

/-- Ambient facts `is_protected_path` consults: the user's home directory,
the platform, and which paths exist on disk (for the project markers). -/
structure SafetyCtx where
  home : DirPath
  os : OSKind
  fsExists : DirPath → Bool

/-- Embedding of `_is_windows_protected` (`safety/protected.py`). -/
def _is_windows_protected (p : DirPath) : Bool :=
  let u := pyUpper (pathStr p)
  ["C:\\WINDOWS", "C:\\PROGRAM FILES", "C:\\PROGRAMDATA", "C:\\USERS\\DEFAULT",
   "C:\\USERS\\PUBLIC", "C:\\$RECYCLE.BIN", "C:\\SYSTEM VOLUME INFORMATION"].any
    fun s => s.data.isPrefixOf u

/-- Substring containment on character lists (Python's `in` on strings). -/
def containsSub (needle hay : List Char) : Bool :=
  hay.tails.any fun t => needle.isPrefixOf t

/-- Embedding of `_is_macos_protected` (`safety/protected.py`): a prefix hit
returns `not ("Caches" in path_str)`; since that exception does not depend
on which entry hit, folding it into the any-loop is faithful. -/
def _is_macos_protected (home : DirPath) (p : DirPath) : Bool :=
  let s := pathStr p
  (["/System".data, "/Library".data, "/private".data, "/cores".data,
    "/Applications".data,
    pathStr (home ++ ["Library", "Application Support"]),
    pathStr (home ++ ["Library", "Preferences"])].any
    fun t => t.isPrefixOf s && !containsSub "Caches".data s)

/-- Home-directory folders protected by the third rule of `is_protected_path`. -/
def critical_folders : List String :=
  ["Documents", "Desktop", "Downloads", "Pictures", "Music", "Videos"]

/-- Rule of `is_protected_path` protecting `~/Documents` and friends. -/
def homeCriticalRule (ctx : SafetyCtx) (p : DirPath) : Bool :=
  p.dropLast == ctx.home && critical_folders.contains (dirName p)

/-- Platform-specific rule of `is_protected_path`. -/
def platformRule (ctx : SafetyCtx) (p : DirPath) : Bool :=
  match ctx.os with
  | .windows => _is_windows_protected p
  | .darwin => _is_macos_protected ctx.home p
  | .linux => false

/-- Project-marker rule of `is_protected_path`: some `PROTECTED_INDICATORS`
file exists directly inside the directory. -/
def projectMarkerRule (ctx : SafetyCtx) (p : DirPath) : Bool :=
  PROTECTED_INDICATORS.any fun ind => ctx.fsExists (p ++ [ind])

/-- Embedding of `is_protected_path` (`safety/protected.py`, lines 88-140).
The source's sequence of early `return True`s is the short-circuit
disjunction of the rules, with the project-marker rule consulted only when
`for_scanning` is false. -/
def is_protected_path (ctx : SafetyCtx) (p : DirPath) (for_scanning : Bool) : Bool :=
  systemDirRule p ||
  PROTECTED_NAMES.contains (dirName p) ||
  homeCriticalRule ctx p ||
  platformRule ctx p ||
  (!for_scanning && projectMarkerRule ctx p)

/-! ### System-cache pattern registry (`patterns/browser_cache.py`) -/

/-- Threshold `MIN_SIZE_LARGE_CACHE` (50 MB) of `patterns/browser_cache.py`. -/
def MIN_SIZE_LARGE_CACHE : ℕ := 50 * 1024 * 1024

/-- Embedding of `BROWSER_CACHE_PATTERNS` (`patterns/browser_cache.py`). -/
def BROWSER_CACHE_PATTERNS : List BloatPattern :=
  [{ name := "Chrome Cache", category := "Browser",
     patterns := ["Cache", "Code Cache", "GPUCache", "ShaderCache", "GrShaderCache"],
     description := "Chrome browser cache" },
   { name := "Chrome Media Cache", category := "Browser",
     patterns := ["Media Cache", "Service Worker"],
     description := "Chrome media and service worker cache" },
   { name := "Chrome Storage", category := "Browser",
     patterns := ["IndexedDB", "Local Storage", "Session Storage"],
     description := "Chrome local storage (safe if not important)",
     safe_level := "caution" },
   { name := "Firefox Cache", category := "Browser",
     patterns := ["cache2", "startupCache", "shader-cache"],
     description := "Firefox browser cache" },
   { name := "Firefox Offline Cache", category := "Browser", patterns := ["OfflineCache"],
     description := "Firefox offline cache" },
   { name := "Edge Cache", category := "Browser",
     patterns := ["Cache", "Code Cache", "GPUCache"],
     description := "Microsoft Edge cache" },
   { name := "Safari Cache", category := "Browser",
     patterns := ["re:com\\.apple\\.Safari.*"],
     description := "Safari browser cache" },
   { name := "WebKit Cache", category := "Browser",
     patterns := ["re:com\\.apple\\.WebKit.*"],
     description := "WebKit shared cache" }]

/-- Embedding of `PACKAGE_MANAGER_PATTERNS` (`patterns/browser_cache.py`). -/
def PACKAGE_MANAGER_PATTERNS : List BloatPattern :=
  [{ name := "npm cache", category := "Package Manager",
     patterns := ["_cacache", "_npx", "_logs"], description := "npm cache files" },
   { name := "yarn cache", category := "Package Manager",
     patterns := ["yarn", "re:v[0-9]+-tmp"], description := "Yarn package cache" },
   { name := "pnpm store", category := "Package Manager",
     patterns := ["pnpm-store", "pnpm"], description := "pnpm package store" },
   { name := "pip cache", category := "Package Manager",
     patterns := ["pip", "wheels", "re:^http-v[0-9]+$"],
     description := "pip download cache" },
   { name := "pipx cache", category := "Package Manager", patterns := ["pipx"],
     description := "pipx cache" },
   { name := "Cargo registry", category := "Package Manager", patterns := ["registry"],
     description := "Cargo package registry cache", safe_level := "caution",
     min_size := MIN_SIZE_LARGE_CACHE },
   { name := "Cargo git", category := "Package Manager",
     patterns := ["checkouts", "re:^db$"],
     description := "Cargo git dependencies cache", safe_level := "caution",
     min_size := MIN_SIZE_LARGE_CACHE },
   { name := "Go build cache", category := "Package Manager", patterns := ["go-build"],
     description := "Go build cache" },
   { name := "Go mod cache", category := "Package Manager", patterns := ["re:^mod$"],
     description := "Go module cache", safe_level := "caution" },
   { name := "Gradle caches", category := "Package Manager",
     patterns := ["re:^caches$", "modules-2", "build-cache-1"],
     description := "Gradle build cache" },
   { name := "Composer cache", category := "Package Manager", patterns := ["composer"],
     description := "PHP Composer cache" },
   { name := "NuGet cache", category := "Package Manager", patterns := ["nuget", "NuGet"],
     description := "NuGet package cache" },
   { name := "Bundler cache", category := "Package Manager", patterns := ["bundler"],
     description := "Ruby Bundler cache" }]

/-- Embedding of `APP_CACHE_PATTERNS` (`patterns/browser_cache.py`). -/
def APP_CACHE_PATTERNS : List BloatPattern :=
  [{ name := "VS Code Cache", category := "App",
     patterns := ["CachedData", "CachedExtensions", "CachedExtensionVSIXs"],
     description := "VS Code cached data" },
   { name := "VS Code Crashpad", category := "App", patterns := ["Crashpad"],
     description := "VS Code crash reports" },
   { name := "JetBrains Caches", category := "App",
     patterns := ["re:^(IntelliJ|PyCharm|WebStorm|GoLand|CLion|Rider|PhpStorm|RubyMine|DataGrip|AndroidStudio).*",
                  "re:^JetBrains$"],
     description := "JetBrains IDE caches" },
   { name := "JetBrains Local History", category := "App", patterns := ["LocalHistory"],
     description := "JetBrains local history", safe_level := "caution" },
   { name := "Docker buildx cache", category := "App", patterns := ["buildx"],
     description := "Docker buildx cache", safe_level := "caution" },
   { name := "Electron GPU Cache", category := "App",
     patterns := ["GPUCache", "gpu-process-preferences"],
     description := "Electron app GPU cache" },
   { name := "Electron Blob Storage", category := "App", patterns := ["blob_storage"],
     description := "Electron blob storage" },
   { name := "Teams Cache", category := "App",
     patterns := ["re:^Teams$", "re:^microsoft-teams$"],
     description := "Microsoft Teams cache" },
   { name := "Slack Cache", category := "App", patterns := ["re:^[Ss]lack$"],
     description := "Slack cache" },
   { name := "Discord Cache", category := "App", patterns := ["re:^[Dd]iscord$"],
     description := "Discord cache" },
   { name := "Zoom Cache", category := "App", patterns := ["re:^[Zz]oom$", "re:^zoom\\.us$"],
     description := "Zoom cache" },
   { name := "Spotify Cache", category := "App", patterns := ["re:^spotify$", "re:^Spotify$"],
     description := "Spotify streaming cache" },
   { name := "Thumbnails", category := "System", patterns := ["thumbnails", "Thumbnails"],
     description := "Image thumbnail cache" },
   { name := "Font Cache", category := "System", patterns := ["fontconfig"],
     description := "Font rendering cache" },
   { name := "Mesa Shader Cache", category := "System",
     patterns := ["mesa_shader_cache", "mesa_shader_cache_db"],
     description := "Mesa GPU shader cache" },
   { name := "NVIDIA Cache", category := "System",
     patterns := ["nvidia", "GLCache", "ComputeCache"],
     description := "NVIDIA GPU cache" },
   { name := "AMD Cache", category := "System", patterns := ["AMD", "VkCache"],
     description := "AMD GPU cache" }]

/-- Embedding of `get_system_cache_patterns` (`patterns/browser_cache.py`). -/
def get_system_cache_patterns : List BloatPattern :=
  BROWSER_CACHE_PATTERNS ++ PACKAGE_MANAGER_PATTERNS ++ APP_CACHE_PATTERNS

/-! ### Filesystem model and walkers (`core/scanner.py`)

The filesystem is a tree; because Lean 4.14 has no structural recursion
through nested inductives, the entry list of a directory is its own
mutually defined type `FSList`, with `fsList` converting from ordinary
lists for readability.  A directory with `readable = false` models
`PermissionError`/`OSError` from `os.scandir`; calling `os.scandir` on a
plain file raises `NotADirectoryError` (an `OSError`), which the source
catches into the error list.  Error entries record the failing path (the
source formats `f"{path}: {e}"`; the message text is elided).  Each walker
comes as a mutual pair, the node function (the Python function body) and
the entry-list function (its `for entry in entries` loop, accumulating in
traversal order). -/

mutual
/-- Filesystem tree: files carry size, an optional content hash (`none`
models an unreadable file, as in `hash_file`) and an mtime; `link` marks
symlinks, which every walker skips. -/
inductive FSNode where
  | file (name : String) (size : ℕ) (hash : Option String) (mtime : ℤ) (link : Bool)
  | dir (name : String) (readable : Bool) (entries : FSList) (link : Bool)

/-- Entry list of a directory. -/
inductive FSList where
  | nil
  | cons (e : FSNode) (rest : FSList)
end

/-- Build an `FSList` from an ordinary list. -/
def fsList : List FSNode → FSList
  | [] => .nil
  | e :: t => .cons e (fsList t)

/-- Entry name of a node (`entry.name`). -/
def FSNode.name : FSNode → String
  | .file n _ _ _ _ => n
  | .dir n _ _ _ => n

mutual
/-- Embedding of `collect_pattern_matches` (`core/scanner.py`, lines
208-266): protected check, depth-0 root test, depth bound, then the child
loop.  Returns (matches, errors) in traversal order. -/
def collect_pattern_matches (ctx : SafetyCtx) (pm : DirPath → Option BloatPattern)
    (path : DirPath) (node : FSNode) (depth max_depth : ℕ) :
    List (DirPath × BloatPattern) × List DirPath :=
  if is_protected_path ctx path true then ([], [])
  else
    (if depth = 0 then pm path else none).elim
      (if max_depth < depth then ([], [])
       else
         match node with
         | .file _ _ _ _ _ => ([], [path])
         | .dir _ readable entries _ =>
           if readable then collectPatternChildren ctx pm path entries depth max_depth
           else ([], [path]))
      (fun matched => ([(path, matched)], []))

/-- Child loop of `collect_pattern_matches`: skip non-directories and
symlinks, skip protected children, record a match or recurse. -/
def collectPatternChildren (ctx : SafetyCtx) (pm : DirPath → Option BloatPattern)
    (path : DirPath) (l : FSList) (depth max_depth : ℕ) :
    List (DirPath × BloatPattern) × List DirPath :=
  match l with
  | .nil => ([], [])
  | .cons e rest =>
    let cur : List (DirPath × BloatPattern) × List DirPath :=
      match e with
      | .file _ _ _ _ _ => ([], [])
      | .dir nm _ _ link =>
        if link then ([], [])
        else
          let child := path ++ [nm]
          if is_protected_path ctx child true then ([], [])
          else
            (pm child).elim
              (collect_pattern_matches ctx pm child e (depth + 1) max_depth)
              (fun matched => ([(child, matched)], []))
    let rst := collectPatternChildren ctx pm path rest depth max_depth
    (cur.1 ++ rst.1, cur.2 ++ rst.2)
end

mutual
/-- Embedding of `Scanner._collect_matches` (`core/scanner.py`, lines
348-388): depth bound, protected check, then the child loop.  Unlike
`collect_pattern_matches` it never tests the root itself, checks the depth
bound before the protected check, and does not re-check protection on a
matched child. -/
def scannerCollectMatches (ctx : SafetyCtx) (pm : DirPath → Option BloatPattern)
    (path : DirPath) (node : FSNode) (depth max_depth : ℕ) :
    List (DirPath × BloatPattern) × List DirPath :=
  if max_depth < depth then ([], [])
  else if is_protected_path ctx path true then ([], [])
  else
    match node with
    | .file _ _ _ _ _ => ([], [path])
    | .dir _ readable entries _ =>
      if readable then scannerCollectChildren ctx pm path entries depth max_depth
      else ([], [path])

/-- Child loop of `Scanner._collect_matches`. -/
def scannerCollectChildren (ctx : SafetyCtx) (pm : DirPath → Option BloatPattern)
    (path : DirPath) (l : FSList) (depth max_depth : ℕ) :
    List (DirPath × BloatPattern) × List DirPath :=
  match l with
  | .nil => ([], [])
  | .cons e rest =>
    let cur : List (DirPath × BloatPattern) × List DirPath :=
      match e with
      | .file _ _ _ _ _ => ([], [])
      | .dir nm _ _ link =>
        if link then ([], [])
        else
          let child := path ++ [nm]
          (pm child).elim
            (scannerCollectMatches ctx pm child e (depth + 1) max_depth)
            (fun matched => ([(child, matched)], []))
    let rst := scannerCollectChildren ctx pm path rest depth max_depth
    (cur.1 ++ rst.1, cur.2 ++ rst.2)
end

mutual
/-- Embedding of `get_directory_size` (`core/scanner.py`, lines 112-140):
(total bytes, file count); sum regular-file sizes, recurse into
subdirectories, skip symlinks; enumeration failures contribute nothing. -/
def get_directory_size : FSNode → ℕ × ℕ
  | .file _ _ _ _ _ => (0, 0)
  | .dir _ readable entries _ =>
    if readable then dirSizeEntries entries else (0, 0)

/-- Entry loop of `get_directory_size`. -/
def dirSizeEntries : FSList → ℕ × ℕ
  | .nil => (0, 0)
  | .cons e rest =>
    let cur : ℕ × ℕ :=
      match e with
      | .file _ sz _ _ link => if link then (0, 0) else (sz, 1)
      | .dir _ _ _ link => if link then (0, 0) else get_directory_size e
    let rst := dirSizeEntries rest
    (cur.1 + rst.1, cur.2 + rst.2)
end

/-! ### The `Scanner.scan` pipeline (`core/scanner.py`, lines 283-346)

Phase 2 sizes the collected matches through `parallel_map calc_size`;
`calc_size` raises nothing (`get_directory_size` swallows all filesystem
errors), and the final list is re-sorted, so the embedding processes the
matches in input order and takes the per-path sizing as an oracle
`sizeFn` (the snapshot of what `get_directory_size` would return for that
path).  Progress reporting is display-only and elided. -/

/-- Embedding of `BloatTarget` (`core/scanner.py`). -/
structure BloatTarget where
  path : DirPath
  pattern : BloatPattern
  size_bytes : ℕ
  file_count : ℕ

/-- Embedding of `ScanResult` (`core/scanner.py`). -/
structure ScanResult where
  root_path : DirPath
  targets : List BloatTarget
  total_size : ℕ
  scan_errors : List DirPath

/-- Embedding of `Scanner.scan`: collect matches with `_collect_matches`
(max depth 10 when `deep`, else 5), build a target for each match whose
size is positive and meets both the pattern's and the scanner's minimum,
sort descending by size (Python's `list.sort` is stable; the embedding
uses a stable insertion sort, which yields the same list), and total the
sizes. -/
def Scanner.scan (ctx : SafetyCtx) (rm : String → String → Bool) (ex : DirPath → Bool)
    (min_size : ℕ) (sizeFn : DirPath → ℕ × ℕ) (root : DirPath) (node : FSNode)
    (deep : Bool) : ScanResult :=
  let max_depth := if deep then 10 else 5
  let pm := fun p => match_patterns rm p (get_all_patterns ex)
  let collected := scannerCollectMatches ctx pm root node 0 max_depth
  if collected.1.isEmpty then ⟨root, [], 0, collected.2⟩
  else
    let targets := collected.1.filterMap fun pr =>
      let sc := sizeFn pr.1
      if 0 < sc.1 ∧ pr.2.min_size ≤ sc.1 ∧ min_size ≤ sc.1 then
        some ⟨pr.1, pr.2, sc.1, sc.2⟩
      else none
    let sorted := targets.insertionSort fun a b => b.size_bytes ≤ a.size_bytes
    ⟨root, sorted, (sorted.map BloatTarget.size_bytes).sum, collected.2⟩

/-! ### `CacheScanner` (`core/cache_scanner.py`)

Only the walking core (`_scan_cache_root`, `_scan_subdirectory`,
`_match_against_patterns`) is embedded; the surrounding `scan` method
enumerates platform cache locations, which is out-of-scope glue.
`_match_against_patterns` is the same first-match loop as
`match_patterns`, over `get_system_cache_patterns`. -/

mutual
/-- Embedding of `CacheScanner._scan_subdirectory` (lines 202-242): match
children against the system-cache registry, sizing and recording matches
immediately (`size >= matched.min_size` is the only filter), recursing
otherwise up to `max_depth`. -/
def cacheScanSubdir (ctx : SafetyCtx) (pm : DirPath → Option BloatPattern)
    (sizeFn : DirPath → ℕ × ℕ) (path : DirPath) (node : FSNode)
    (depth max_depth : ℕ) : List BloatTarget × List DirPath :=
  if max_depth < depth then ([], [])
  else
    match node with
    | .file _ _ _ _ _ => ([], [path])
    | .dir _ readable entries _ =>
      if readable then cacheScanSubdirChildren ctx pm sizeFn path entries depth max_depth
      else ([], [path])

/-- Child loop shared by `_scan_cache_root` and `_scan_subdirectory`:
skip non-directories, symlinks and protected children; size and record
a matched child, recurse into an unmatched one. -/
def cacheScanSubdirChildren (ctx : SafetyCtx) (pm : DirPath → Option BloatPattern)
    (sizeFn : DirPath → ℕ × ℕ) (path : DirPath) (l : FSList)
    (depth max_depth : ℕ) : List BloatTarget × List DirPath :=
  match l with
  | .nil => ([], [])
  | .cons e rest =>
    let cur : List BloatTarget × List DirPath :=
      match e with
      | .file _ _ _ _ _ => ([], [])
      | .dir nm _ _ link =>
        if link then ([], [])
        else
          let child := path ++ [nm]
          if is_protected_path ctx child true then ([], [])
          else
            (pm child).elim
              (cacheScanSubdir ctx pm sizeFn child e (depth + 1) max_depth)
              (fun matched =>
                let sc := sizeFn child
                if matched.min_size ≤ sc.1 then ([⟨child, matched, sc.1, sc.2⟩], [])
                else ([], []))
    let rst := cacheScanSubdirChildren ctx pm sizeFn path rest depth max_depth
    (cur.1 ++ rst.1, cur.2 ++ rst.2)
end

/-- Embedding of `CacheScanner._scan_cache_root` (lines 144-200): skip
protected roots; if the root itself matches a system-cache pattern, size
it and record it when `size >= matched.min_size` (note: no positivity
check and no caller-level minimum); otherwise walk children, recursing via
`_scan_subdirectory` with `depth=1, max_depth=3`. -/
def cacheScanRoot (ctx : SafetyCtx) (pm : DirPath → Option BloatPattern)
    (sizeFn : DirPath → ℕ × ℕ) (root : DirPath) (node : FSNode) :
    List BloatTarget × List DirPath :=
  if is_protected_path ctx root true then ([], [])
  else
    match pm root with
    | some matched =>
      let sc := sizeFn root
      if matched.min_size ≤ sc.1 then ([⟨root, matched, sc.1, sc.2⟩], []) else ([], [])
    | none =>
      match node with
      | .file _ _ _ _ _ => ([], [root])
      | .dir _ readable entries _ =>
        if readable then cacheScanSubdirChildren ctx pm sizeFn root entries 0 3
        else ([], [root])

/-! ### Duplicate detection (`core/duplicates.py`) -/

/-- Embedding of `DuplicateFile`.  `mtime` is a POSIX timestamp; the source
stores `st_mtime` as a float used only for ordering, modelled on ℤ. -/
structure DuplicateFile where
  path : DirPath
  size_bytes : ℕ
  mtime : ℤ
deriving DecidableEq, Repr

/-- Embedding of `DuplicateGroup`. -/
structure DuplicateGroup where
  hash_value : String
  size_bytes : ℕ
  files : List DuplicateFile
deriving DecidableEq, Repr

/-- Embedding of the `duplicate_count` property (`len(self.files) - 1`,
Python integer arithmetic, hence ℤ). -/
def DuplicateGroup.duplicate_count (g : DuplicateGroup) : ℤ :=
  (g.files.length : ℤ) - 1

/-- Embedding of the `wasted_bytes` property. -/
def DuplicateGroup.wasted_bytes (g : DuplicateGroup) : ℤ :=
  (g.size_bytes : ℤ) * g.duplicate_count

/-- Embedding of `DuplicateResult`. -/
structure DuplicateResult where
  root_path : DirPath
  groups : List DuplicateGroup
  total_wasted : ℤ
  files_scanned : ℕ
  scan_errors : List DirPath

/-- Embedding of the `KeepStrategy` literal type. -/
inductive KeepStrategy where
  | first
  | shortest
  | oldest
  | newest
deriving DecidableEq, Repr

/-- Python `min(l, key)` on a nonempty list: scans left to right, keeping
the current element unless a strictly smaller key appears (first minimum
wins ties). -/
def pyMinBy (key : DuplicateFile → ℤ) (x : DuplicateFile) (xs : List DuplicateFile) :
    DuplicateFile :=
  xs.foldl (fun acc y => if key y < key acc then y else acc) x

/-- Python `max(l, key)`: first maximum wins ties. -/
def pyMaxBy (key : DuplicateFile → ℤ) (x : DuplicateFile) (xs : List DuplicateFile) :
    DuplicateFile :=
  xs.foldl (fun acc y => if key acc < key y then y else acc) x

/-- Embedding of `DuplicateGroup.get_keep_file` (lines 80-91); `none` models
the `ValueError` raised on an empty group. -/
def DuplicateGroup.get_keep_file (g : DuplicateGroup) (strategy : KeepStrategy) :
    Option DuplicateFile :=
  match g.files with
  | [] => none
  | x :: xs =>
    match strategy with
    | .shortest => some (pyMinBy (fun f => ((pathStr f.path).length : ℤ)) x xs)
    | .oldest => some (pyMinBy (fun f => f.mtime) x xs)
    | .newest => some (pyMaxBy (fun f => f.mtime) x xs)
    | .first => some x

/-- Embedding of `DuplicateGroup.get_duplicates_to_remove` (lines 93-96):
every member whose path differs from the kept file's path, in order. -/
def DuplicateGroup.get_duplicates_to_remove (g : DuplicateGroup)
    (strategy : KeepStrategy) : Option (List DuplicateFile) :=
  (g.get_keep_file strategy).map fun keep =>
    g.files.filter fun f => !(f.path == keep.path)

/-- Append a path to its size bucket, preserving dict insertion order
(`defaultdict(list)` in `DuplicateScanner.scan`). -/
def sizeGroupsAdd (m : List (ℕ × List DirPath)) (size : ℕ) (p : DirPath) :
    List (ℕ × List DirPath) :=
  match m with
  | [] => [(size, [p])]
  | (s, ps) :: rest =>
    if s = size then (s, ps ++ [p]) :: rest else (s, ps) :: sizeGroupsAdd rest size p

mutual
/-- Embedding of `DuplicateScanner._collect_files_by_size` (lines 278-324):
record every non-symlink regular file of size at least `min_size`, keyed by
exact size; recurse into non-symlink directories; the threaded state is
(size buckets, files scanned, errors). -/
def collectFilesBySize (ctx : SafetyCtx) (min_size : ℕ) (path : DirPath)
    (node : FSNode) (st : List (ℕ × List DirPath) × ℕ × List DirPath) :
    List (ℕ × List DirPath) × ℕ × List DirPath :=
  if is_protected_path ctx path true then st
  else
    match node with
    | .file _ _ _ _ _ => (st.1, st.2.1, st.2.2 ++ [path])
    | .dir _ readable entries _ =>
      if readable then collectFilesChildren ctx min_size path entries st
      else (st.1, st.2.1, st.2.2 ++ [path])

/-- Entry loop of `_collect_files_by_size`. -/
def collectFilesChildren (ctx : SafetyCtx) (min_size : ℕ) (path : DirPath)
    (l : FSList) (st : List (ℕ × List DirPath) × ℕ × List DirPath) :
    List (ℕ × List DirPath) × ℕ × List DirPath :=
  match l with
  | .nil => st
  | .cons e rest =>
    let st1 :=
      match e with
      | .file nm sz _ _ link =>
        if link then st
        else if min_size ≤ sz then
          (sizeGroupsAdd st.1 sz (path ++ [nm]), st.2.1 + 1, st.2.2)
        else st
      | .dir nm _ _ link =>
        if link then st
        else collectFilesBySize ctx min_size (path ++ [nm]) e st
    collectFilesChildren ctx min_size path rest st1
end

/-- Append a hashed file to its `(size, hash)` group, preserving dict
insertion order.  The source keys `hash_groups` by the string
`f"{size}:{file_hash}"`; since a hex digest never contains a colon, the
pair `(size, hash)` is a faithful rendering of that key. -/
def hashGroupsAdd (m : List ((ℕ × String) × DuplicateGroup)) (size : ℕ)
    (h : String) (f : DuplicateFile) : List ((ℕ × String) × DuplicateGroup) :=
  match m with
  | [] => [((size, h), ⟨h, size, [f]⟩)]
  | (k, g) :: rest =>
    if k = (size, h) then (k, ⟨g.hash_value, g.size_bytes, g.files ++ [f]⟩) :: rest
    else (k, g) :: hashGroupsAdd rest size h f

/-- Embedding of `DuplicateScanner.scan` (lines 167-276).  Phase 1 buckets
files by size; buckets with fewer than two files are dropped and the rest
flattened into `(size, path)` candidates.  Phase 2 hashes candidates (the
source fans this out through `parallel_map`, consuming results as they
complete; `hash_candidate` never raises, hashing failures surface as a
`none` digest and are skipped, and the final list is re-sorted, so the
embedding consumes candidates in input order), groups by `(size, hash)`,
drops groups with fewer than two files, sorts descending by wasted bytes
and totals the waste.  `hashFn`/`mtimeFn` are the filesystem oracles read
by `hash_file` and `path.stat()` (stat failure is mapped to 0.0 in the
source, so `mtimeFn` is total). -/
def DuplicateScanner.scan (ctx : SafetyCtx) (min_size : ℕ)
    (hashFn : DirPath → Option String) (mtimeFn : DirPath → ℤ)
    (root : DirPath) (node : FSNode) : DuplicateResult :=
  let st := collectFilesBySize ctx min_size root node ([], 0, [])
  let candidate_groups := st.1.filter fun sg => 2 ≤ sg.2.length
  if candidate_groups.isEmpty then ⟨root, [], 0, st.2.1, st.2.2⟩
  else
    let candidates := candidate_groups.flatMap fun sg => sg.2.map fun p => (sg.1, p)
    let hash_groups := candidates.foldl
      (fun hg c =>
        match hashFn c.2 with
        | none => hg
        | some h => hashGroupsAdd hg c.1 h ⟨c.2, c.1, mtimeFn c.2⟩)
      []
    let groups := (hash_groups.map Prod.snd).filter fun g => 2 ≤ g.files.length
    let sorted := groups.insertionSort fun a b => b.wasted_bytes ≤ a.wasted_bytes
    ⟨root, sorted, (sorted.map DuplicateGroup.wasted_bytes).sum, st.2.1, st.2.2⟩

/-! ### Parallel execution (`core/parallel.py`)

The mapped function is modelled as `α → Except ε β` (a Python callable
that either returns or raises).  The worker pool yields results in
completion order, which is scheduler-dependent; the embedding takes that
order as an explicit schedule argument (a permutation of the item
indices; anything else falls back to input order), so theorems quantify
over every possible completion order. -/

/-- Threshold `MIN_PARALLEL_ITEMS` (`core/parallel.py`). -/
def MIN_PARALLEL_ITEMS : ℕ := 2

/-- Embedding of `ParallelConfig`.  `DEFAULT_WORKERS` is host-dependent
(`min(os.cpu_count() or 4, 8)`), so `max_workers` is just a field here. -/
structure ParallelConfig where
  enabled : Bool := true
  max_workers : ℤ := 4

/-- Embedding of `ParallelConfig.__post_init__`: clamp `max_workers`
into `[1, 32]`. -/
def mkParallelConfig (enabled : Bool) (max_workers : ℤ) : ParallelConfig :=
  ⟨enabled, if max_workers < 1 then 1 else if 32 < max_workers then 32 else max_workers⟩

/-- Evaluate one item: `(item, result, error)` with the error slot holding a
raised exception. -/
def runItem (f : α → Except ε β) (a : α) : α × Option β × Option ε :=
  match f a with
  | .ok r => (a, some r, none)
  | .error e => (a, none, some e)

/-- Reorder items by a completion schedule; an invalid schedule (not a
permutation of the indices) falls back to input order. -/
def applySchedule (items : List α) (sched : List ℕ) : List α :=
  if sched.Perm (List.range items.length) then sched.filterMap (fun i => items.get? i)
  else items

/-- Embedding of `parallel_map` (`core/parallel.py`, lines 35-76): with
parallelism disabled or fewer than `MIN_PARALLEL_ITEMS` items, map
sequentially in input order; otherwise yield the per-item triples in
completion order. -/
def parallel_map (f : α → Except ε β) (items : List α) (cfg : ParallelConfig)
    (sched : List ℕ) : List (α × Option β × Option ε) :=
  if !cfg.enabled || items.length < MIN_PARALLEL_ITEMS then
    items.map (runItem f)
  else
    (applySchedule items sched).map (runItem f)

/-- Embedding of `parallel_map_ordered` (`core/parallel.py`, lines 79-123):
both branches fill a result slot per input index, so the output is the
per-item triples in input order regardless of scheduling. -/
def parallel_map_ordered (f : α → Except ε β) (items : List α)
    (cfg : ParallelConfig) : List (α × Option β × Option ε) :=
  items.map (runItem f)

/-- Regex oracle returning false everywhere (usable for concrete inputs
whose classification never consults a regex matcher). -/
def noRM : String → String → Bool := fun _ _ => false

/-- Existence oracle for a filesystem with no marker files. -/
def noEX : DirPath → Bool := fun _ => false

/-- Concrete safety context: Linux, home `/home/u`, no marker files. -/
def ctxLinux : SafetyCtx := ⟨["home", "u"], .linux, noEX⟩

/-- The `node_modules` entry of `CACHE_PATTERNS`, named for use in concrete
statements (definitionally equal to the registry entry). -/
def nodeModulesPattern : BloatPattern :=
  { name := "node_modules", category := "Node.js", patterns := ["node_modules"],
    description := "Node.js dependencies (reinstallable with npm/yarn)",
    min_size := 1024 * 1024 }

/-- Concrete oracles and trees used by witness theorems. -/
def dupHashOracle : DirPath → Option String := fun p =>
  if p = ["r", "d.txt"] then some "h2"
  else if p = ["r", "a.txt"] ∨ p = ["r", "sub", "b.txt"] ∨ p = ["r", "c.txt"]
    then some "h1" else none

def dupMtimeOracle : DirPath → ℤ := fun p =>
  if p = ["r", "a.txt"] then 10
  else if p = ["r", "sub", "b.txt"] then 20
  else if p = ["r", "c.txt"] then 30 else 40

def dupTreeExample : FSNode :=
  .dir "r" true (fsList
    [.file "a.txt" 1024 (some "h1") 10 false,
     .dir "sub" true (fsList [.file "b.txt" 1024 (some "h1") 20 false]) false,
     .file "c.txt" 1024 (some "h1") 30 false,
     .file "d.txt" 1024 (some "h2") 40 false]) false

def scanTreeExample : FSNode :=
  .dir "proj" true (fsList
    [.dir "node_modules" true (fsList [.dir "pkg" true (fsList []) false]) false,
     .dir "__pycache__" true (fsList []) false,
     .dir "src" true (fsList []) false]) false

def scanSizeOracle : DirPath → ℕ × ℕ := fun p =>
  if p = ["home", "u", "proj", "node_modules"] then (2000000, 5)
  else if p = ["home", "u", "proj", "__pycache__"] then (1000, 2) else (0, 0)

def pycachePattern : BloatPattern :=
  { name := "__pycache__", category := "Python", patterns := ["__pycache__"],
    description := "Python bytecode cache" }


/-!
## Theorems

Helper lemmas first, then one theorem per claim (with witnesses and
counterexamples where required).
-/

/-! ### Helper lemmas for `parse_size` (claim C2) -/


theorem lg2Aux_spec : ∀ fuel n, 1 ≤ n → n ≤ fuel →
    2 ^ lg2Aux fuel n ≤ n ∧ n < 2 ^ (lg2Aux fuel n + 1) := by
  intro fuel
  induction fuel with
  | zero => intro n h1 h2; omega
  | succ fuel ih =>
    intro n h1 h2
    by_cases hn : n < 2
    · simp [lg2Aux, hn]; omega
    · have hrec := ih (n / 2) (by omega) (by omega)
      simp only [lg2Aux, if_neg hn]
      constructor
      · calc 2 ^ (lg2Aux fuel (n / 2) + 1) = 2 * 2 ^ (lg2Aux fuel (n / 2)) := by ring
        _ ≤ 2 * (n / 2) := by omega
        _ ≤ n := by omega
      · have : n / 2 < 2 ^ (lg2Aux fuel (n / 2) + 1) := hrec.2
        calc n < 2 * (n / 2 + 1) := by omega
        _ ≤ 2 * 2 ^ (lg2Aux fuel (n / 2) + 1) := by omega
        _ = 2 ^ (lg2Aux fuel (n / 2) + 1 + 1) := by ring

theorem lg2_spec (n : ℕ) (h : 1 ≤ n) : 2 ^ lg2 n ≤ n ∧ n < 2 ^ (lg2 n + 1) :=
  lg2Aux_spec n n h le_rfl

theorem rneFrac_mul (m c : ℕ) (hc : 0 < c) : rneFrac (m * c) c = m := by
  unfold rneFrac
  have h1 : m * c / c = m := Nat.mul_div_cancel m hc
  have h2 : m * c % c = 0 := Nat.mul_mod_left m c
  simp [h1, h2, hc]

theorem roundPosFrac_exact (n c : ℕ) (hc : 0 < c) (h1 : 1 ≤ n) (h53 : n ≤ 2 ^ 53) :
    ∃ k, roundPosFrac (n * c) c = ⟨(n : ℤ) * 2 ^ k, 2 ^ k⟩ := by
  have hflog : fracLog2 (n * c) c = (lg2 n : ℤ) := by
    unfold fracLog2
    rw [if_pos (Nat.le_mul_of_pos_left c h1), Nat.mul_div_cancel n hc]
  obtain ⟨hlo, hhi⟩ := lg2_spec n h1
  by_cases hcase : 53 ≤ lg2 n
  · have hn : n = 2 ^ 53 := by
      have : (2:ℕ) ^ 53 ≤ 2 ^ lg2 n := Nat.pow_le_pow_right (by omega) hcase
      omega
    have hL53 : lg2 n = 53 := by
      have h2L : (2:ℕ) ^ lg2 n ≤ 2 ^ 53 := by omega
      have := (Nat.pow_le_pow_iff_right (a := 2) (by omega)).mp h2L
      omega
    refine ⟨0, ?_⟩
    simp only [roundPosFrac, hflog, hL53]
    rw [if_pos (by norm_num)]
    have htn : ((((53:ℕ)) : ℤ) - 52).toNat = 1 := by norm_num
    rw [htn]
    have harg : n * c = 2 ^ 52 * (c * 2 ^ 1) := by rw [hn]; ring
    rw [harg, rneFrac_mul _ _ (by positivity)]
    subst hn
    rw [Frac.mk.injEq]
    norm_num
  · by_cases hcase2 : lg2 n = 52
    · refine ⟨0, ?_⟩
      simp only [roundPosFrac, hflog, hcase2]
      rw [if_pos (by norm_num)]
      have htn : ((((52:ℕ)) : ℤ) - 52).toNat = 0 := by norm_num
      rw [htn]
      have harg : n * c = n * (c * 2 ^ 0) := by ring
      rw [harg, rneFrac_mul _ _ (by positivity)]
      rw [Frac.mk.injEq]
      refine ⟨by push_cast; ring, by norm_num⟩
    · have hL51 : lg2 n ≤ 51 := by omega
      refine ⟨52 - lg2 n, ?_⟩
      simp only [roundPosFrac, hflog]
      rw [if_neg (by omega)]
      have htn : (-((lg2 n : ℤ) - 52)).toNat = 52 - lg2 n := by omega
      rw [htn]
      have harg : n * c * 2 ^ (52 - lg2 n) = n * 2 ^ (52 - lg2 n) * c := by ring
      rw [harg, rneFrac_mul _ _ hc]
      rw [Frac.mk.injEq]
      constructor
      · push_cast; ring
      · rfl

theorem roundFrac_exact (n c : ℕ) (hc : 0 < c) (h53 : n ≤ 2 ^ 53) :
    ∃ k, roundFrac ⟨((n * c : ℕ) : ℤ), c⟩ = ⟨(n : ℤ) * 2 ^ k, 2 ^ k⟩ := by
  by_cases hn : n = 0
  · subst hn
    refine ⟨0, ?_⟩
    simp [roundFrac]
  · have hpos : 0 < n := by omega
    have hnc : 0 < n * c := Nat.mul_pos hpos hc
    have hnum : ¬(((n * c : ℕ) : ℤ) = 0) := by exact_mod_cast hnc.ne'
    have hneg : ¬(((n * c : ℕ) : ℤ) < 0) := not_lt.mpr (Int.natCast_nonneg _)
    unfold roundFrac
    simp only [hnum, hneg, if_false, Int.natAbs_ofNat]
    exact roundPosFrac_exact n c hc hpos h53

theorem digitVal_digitChar (d : ℕ) (h : d < 10) :
    digitVal (Nat.digitChar d) = d := by
  interval_cases d <;> decide

theorem isDigitC_digitChar (d : ℕ) (h : d < 10) :
    isDigitC (Nat.digitChar d) = true := by
  interval_cases d <;> decide

theorem digitsToNat_append_one (xs : List Char) (c : Char) :
    digitsToNat (xs ++ [c]) = 10 * digitsToNat xs + digitVal c := by
  unfold digitsToNat
  rw [List.foldl_append]
  rfl

theorem decimalReprAux_spec : ∀ fuel n, n < fuel →
    (∀ c ∈ decimalReprAux fuel n, isDigitC c = true) ∧
      digitsToNat (decimalReprAux fuel n) = n ∧ decimalReprAux fuel n ≠ [] := by
  intro fuel
  induction fuel with
  | zero => intro n h; omega
  | succ fuel ih =>
    intro n h
    by_cases hn : n < 10
    · refine ⟨?_, ?_, by simp [decimalReprAux, hn]⟩
      · intro c hc
        simp only [decimalReprAux, if_pos hn, List.mem_singleton] at hc
        subst hc
        exact isDigitC_digitChar n hn
      · simp only [decimalReprAux, if_pos hn]
        have : digitsToNat [Nat.digitChar n] = digitVal (Nat.digitChar n) := by
          unfold digitsToNat; simp
        rw [this, digitVal_digitChar n hn]
    · have hrec := ih (n / 10) (by omega)
      simp only [decimalReprAux, if_neg hn]
      refine ⟨?_, ?_, by simp⟩
      · intro c hc
        rcases List.mem_append.mp hc with h1 | h2
        · exact hrec.1 c h1
        · rw [List.mem_singleton] at h2
          subst h2
          exact isDigitC_digitChar _ (Nat.mod_lt n (by omega))
      · rw [digitsToNat_append_one, hrec.2.1, digitVal_digitChar _ (Nat.mod_lt n (by omega))]
        omega

theorem decimalRepr_spec (n : ℕ) :
    (∀ c ∈ decimalRepr n, isDigitC c = true) ∧
      digitsToNat (decimalRepr n) = n ∧ decimalRepr n ≠ [] :=
  decimalReprAux_spec (n + 1) n (by omega)

theorem isDigitC_toNat {c : Char} (h : isDigitC c = true) :
    48 ≤ c.toNat ∧ c.toNat ≤ 57 := by
  simpa only [isDigitC, Bool.and_eq_true, decide_eq_true_eq] using h

theorem isDigitC_not_space {c : Char} (h : isDigitC c = true) : pyIsSpace c = false := by
  have hv := isDigitC_toNat h
  simp only [pyIsSpace, Bool.or_eq_false_iff, decide_eq_false_iff_not]
  omega

theorem isDigitC_upper {c : Char} (h : isDigitC c = true) : pyUpperChar c = c := by
  have hv := isDigitC_toNat h
  simp only [pyUpperChar]
  rw [if_neg]
  simp only [Bool.and_eq_true, decide_eq_true_eq, not_and]
  omega

theorem isDigitC_ne {c : Char} (h : isDigitC c = true) (d : Char) (hd : isDigitC d = false) :
    c ≠ d := by
  intro hEq
  subst hEq
  rw [h] at hd
  exact absurd hd (by simp)

theorem dropWhile_eq_self_of (p : Char → Bool) (l : List Char)
    (h : ∀ c ∈ l, p c = false) : l.dropWhile p = l := by
  cases l with
  | nil => rfl
  | cons c t =>
    rw [List.dropWhile_cons_of_neg]
    simp [h c (List.mem_cons_self c t)]

theorem pyStrip_eq_self (l : List Char) (h : ∀ c ∈ l, pyIsSpace c = false) :
    pyStrip l = l := by
  unfold pyStrip
  rw [dropWhile_eq_self_of _ _ h]
  rw [dropWhile_eq_self_of _ _ (fun c hc => h c (List.mem_reverse.mp hc))]
  exact List.reverse_reverse l

theorem pyUpper_eq_self (l : List Char) (h : ∀ c ∈ l, pyUpperChar c = c) :
    pyUpper l = l := by
  unfold pyUpper
  induction l with
  | nil => rfl
  | cons c t ih =>
    rw [List.map_cons, h c (List.mem_cons_self c t),
      ih (fun x hx => h x (List.mem_cons_of_mem c hx))]

theorem takeWhile_eq_self_of (p : Char → Bool) (l : List Char)
    (h : ∀ c ∈ l, p c = true) : l.takeWhile p = l := by
  induction l with
  | nil => rfl
  | cons c t ih =>
    rw [List.takeWhile_cons_of_pos (h c (List.mem_cons_self c t)),
      ih (fun x hx => h x (List.mem_cons_of_mem c hx))]

theorem dropWhile_eq_nil_of (p : Char → Bool) (l : List Char)
    (h : ∀ c ∈ l, p c = true) : l.dropWhile p = [] := by
  induction l with
  | nil => rfl
  | cons c t ih =>
    rw [List.dropWhile_cons_of_pos (h c (List.mem_cons_self c t)),
      ih (fun x hx => h x (List.mem_cons_of_mem c hx))]

theorem pySign_digits (l : List Char) (hne : l ≠ [])
    (h : ∀ c ∈ l, isDigitC c = true) : pySign l = (false, l) := by
  cases l with
  | nil => exact absurd rfl hne
  | cons c t =>
    have hd := h c (List.mem_cons_self c t)
    simp only [pySign]
    rw [if_neg (isDigitC_ne hd '-' (by decide)), if_neg (isDigitC_ne hd '+' (by decide))]

theorem pyFloatLit_digits (l : List Char) (hne : l ≠ [])
    (h : ∀ c ∈ l, isDigitC c = true) :
    pyFloatLit l = some ⟨false, digitsToNat l, 0⟩ := by
  unfold pyFloatLit
  rw [pySign_digits l hne h]
  simp only
  rw [takeWhile_eq_self_of _ _ h, dropWhile_eq_nil_of _ _ h]
  simp only
  rw [if_neg (by simp [List.isEmpty_iff, hne])]
  simp

theorem unit2_not_suffix (dl : List Char) (h : ∀ c ∈ dl, isDigitC c = true)
    (x : Char) (hx : isDigitC x = false) :
    ([x, 'B'].isSuffixOf (dl ++ ['B'])) = false := by
  rw [Bool.eq_false_iff]
  intro hsuf
  obtain ⟨t, ht⟩ := List.isSuffixOf_iff_suffix.mp hsuf
  have ht2 : (t ++ [x]) ++ ['B'] = dl ++ ['B'] := by simpa using ht
  have ht3 : t ++ [x] = dl := List.append_cancel_right ht2
  have : isDigitC x = true := h x (ht3 ▸ List.mem_append_right t (List.mem_singleton_self x))
  rw [this] at hx
  exact absurd hx (by simp)

theorem findUnit_digits (dl : List Char) (hne : dl ≠ [])
    (h : ∀ c ∈ dl, isDigitC c = true) :
    findUnit (dl ++ ['B']) UNITS = some (dl, 1) := by
  have hT := unit2_not_suffix dl h 'T' (by decide)
  have hG := unit2_not_suffix dl h 'G' (by decide)
  have hM := unit2_not_suffix dl h 'M' (by decide)
  have hK := unit2_not_suffix dl h 'K' (by decide)
  have hB : (['B'].isSuffixOf (dl ++ ['B'])) = true :=
    List.isSuffixOf_iff_suffix.mpr ⟨dl, rfl⟩
  have hlen : (dl ++ ['B']).length - 1 = dl.length := by simp
  simp only [UNITS, findUnit, hT, hG, hM, hK, hB]
  norm_num

theorem truncFrac_pow (n k : ℕ) : truncFrac ⟨(n : ℤ) * 2 ^ k, 2 ^ k⟩ = n := by
  by_cases hn : n = 0
  · subst hn; simp [truncFrac]
  · unfold truncFrac
    have hpos : (0:ℤ) < (n : ℤ) * 2 ^ k := by positivity
    rw [Int.sign_eq_one_of_pos hpos]
    have hcast : (n : ℤ) * 2 ^ k = ((n * 2 ^ k : ℕ) : ℤ) := by push_cast; ring
    rw [hcast, Int.natAbs_ofNat, Nat.mul_div_cancel n (by positivity)]
    simp

theorem parse_size_roundtrip (n : ℕ) (hn : n ≤ 2 ^ 53) :
    parse_size (String.mk (decimalRepr n ++ ['B'])) = .ok (n : ℤ) := by
  obtain ⟨hdig, hval, hne⟩ := decimalRepr_spec n
  have hdata : (String.mk (decimalRepr n ++ ['B'])).data = decimalRepr n ++ ['B'] := rfl
  have hallB : ∀ c ∈ decimalRepr n ++ ['B'], pyIsSpace c = false := by
    intro c hc
    rcases List.mem_append.mp hc with h1 | h2
    · exact isDigitC_not_space (hdig c h1)
    · rw [List.mem_singleton] at h2; subst h2; decide
  have hupB : ∀ c ∈ decimalRepr n ++ ['B'], pyUpperChar c = c := by
    intro c hc
    rcases List.mem_append.mp hc with h1 | h2
    · exact isDigitC_upper (hdig c h1)
    · rw [List.mem_singleton] at h2; subst h2; decide
  have hstrip := pyStrip_eq_self _ hallB
  have hupper := pyUpper_eq_self _ hupB
  have hunit := findUnit_digits _ hne hdig
  have hlit : pyFloatLit (decimalRepr n) = some ⟨false, n, 0⟩ := by
    rw [pyFloatLit_digits _ hne hdig, hval]
  have hfrac : PyDec.toFrac ⟨false, n, 0⟩ = ⟨(n : ℤ), 1⟩ := by
    simp [PyDec.toFrac]
  obtain ⟨k, hk⟩ := roundFrac_exact n 1 (by omega) hn
  have hk' : roundFrac ⟨(n : ℤ), 1⟩ = ⟨(n : ℤ) * 2 ^ k, 2 ^ k⟩ := by
    have : ((n * 1 : ℕ) : ℤ) = (n : ℤ) := by norm_num
    rwa [this] at hk
  obtain ⟨k2, hk2⟩ := roundFrac_exact n (2 ^ k) (by positivity) hn
  have hmul : Frac.mulNat ⟨(n : ℤ) * 2 ^ k, 2 ^ k⟩ 1 = ⟨((n * 2 ^ k : ℕ) : ℤ), 2 ^ k⟩ := by
    simp [Frac.mulNat]
  simp only [parse_size, hdata, hstrip, hupper, hunit, hlit, hfrac, hk', hmul, hk2]
  rw [if_neg (not_lt.mpr (by positivity))]
  rw [truncFrac_pow]

/-- C2 (counterexample): the round-trip `parse_size(str(n) + "B") == n` fails
at `n = 2^53 + 1 = 9007199254740993`: the value passes through a Python
float, which cannot represent this integer, so the correctly rounded result
is `2^53 = 9007199254740992`. -/
theorem C2_parse_size_counterexample :
    parse_size (String.mk (decimalRepr 9007199254740993 ++ ['B'])) =
      .ok 9007199254740992 ∧
      (9007199254740992 : ℤ) ≠ (9007199254740993 : ℤ) :=
  ⟨by decide, by decide⟩

/-- C2 (amended): `parse_size` parses human size literals with unit suffixes
TB, GB, MB, KB, B matched longest-first and case-insensitively, a bare
number is taken as bytes; the round-trip `parse_size(str(n) + "B") == n`
holds for every nonnegative integer `n ≤ 2^53` (the exactly representable
range of the intermediate Python float); negative values and unparsable
input are rejected with a `ValueError`. -/
theorem C2_parse_size_amended :
    (∀ n : ℕ, n ≤ 2 ^ 53 →
      parse_size (String.mk (decimalRepr n ++ ['B'])) = .ok (n : ℤ)) ∧
    parse_size "-1MB" = .error "Size cannot be negative: -1MB" ∧
    parse_size "1KB" = .ok 1024 ∧ parse_size "1kb" = .ok 1024 ∧
    parse_size "10MB" = .ok 10485760 ∧ parse_size "1.5GB" = .ok 1610612736 ∧
    parse_size "1TB" = .ok 1099511627776 ∧ parse_size "100" = .ok 100 ∧
    parse_size "abc" = .error "Invalid size string: ABC" :=
  ⟨parse_size_roundtrip, by decide, by decide, by decide, by decide, by decide,
    by decide, by decide, by decide⟩

/-- C2 (witness): the amended round-trip applied at the concrete input 42. -/
theorem C2_parse_size_amended_witness :
    (42 : ℕ) ≤ 2 ^ 53 ∧
      parse_size (String.mk (decimalRepr 42 ++ ['B'])) = .ok (42 : ℤ) :=
  ⟨by norm_num, C2_parse_size_amended.1 42 (by norm_num)⟩

/-! ### Claims C1, C4, C10: classification order and the protected-path guard -/

/-- Helper: a constant conjunct distributes out of `List.any`. -/
theorem any_and_const (l : List α) (f : α → Bool) (c : Bool) :
    (l.any fun x => f x && c) = (l.any f && c) := by
  cases c
  · simp
  · simp

/-- C1: pattern classification is first-match-wins in declaration order. -/
theorem C1_first_match_wins (rm : String → String → Bool)
    (pats : List BloatPattern) (path : DirPath) :
    (∀ p : BloatPattern,
      match_patterns rm path pats = some p ↔
        p.matches rm (dirName path) path = true ∧
        ∃ pre post, pats = pre ++ p :: post ∧
          ∀ q ∈ pre, q.matches rm (dirName path) path = false) ∧
    (match_patterns rm path pats = none ↔
      ∀ q ∈ pats, q.matches rm (dirName path) path = false) ∧
    (∀ p : BloatPattern,
      p.matches rm (dirName path) path = true ↔
        ∃ pat ∈ p.patterns,
          (if pat.data.take 3 = ['r', 'e', ':']
           then rm (String.mk (pat.data.drop 3)) (dirName path)
           else pat == dirName path) = true ∧
          (match p.validator with
           | none => true
           | some v => v path) = true) := by
  refine ⟨?_, ?_, ?_⟩
  · intro p
    unfold match_patterns
    rw [List.find?_eq_some]
    constructor
    · rintro ⟨hp, pre, post, heq, hpre⟩
      exact ⟨hp, pre, post, heq, fun q hq => by simpa using hpre q hq⟩
    · rintro ⟨hp, pre, post, heq, hpre⟩
      exact ⟨hp, pre, post, heq, fun q hq => by simp [hpre q hq]⟩
  · unfold match_patterns
    rw [List.find?_eq_none]
    constructor
    · intro h q hq
      have := h q hq
      simpa using this
    · intro h q hq
      simp [h q hq]
  · intro p
    unfold BloatPattern.matches
    rw [List.any_eq_true]
    constructor
    · rintro ⟨pat, hmem, hcond⟩
      rw [Bool.and_eq_true] at hcond
      exact ⟨pat, hmem, hcond.1, hcond.2⟩
    · rintro ⟨pat, hmem, h1, h2⟩
      exact ⟨pat, hmem, by rw [Bool.and_eq_true]; exact ⟨h1, h2⟩⟩

/-- C4: a path matching a listed system/critical directory entry is
protected by the system-directory rule exactly when its own last component
is not in the safe-cache-directory allowlist. -/
theorem C4_system_rule_cache_exception (p : DirPath)
    (h : (PROTECTED_PATTERNS.any fun prot => matchesProtected p prot) = true) :
    systemDirRule p = !cache_names.contains (dirName p) := by
  unfold systemDirRule
  rw [any_and_const, h]
  unfold _is_cache_subdirectory
  simp

/-- C4 (witness): `/usr/local/lib/node_modules` matches the `/usr` entry but
its last component is allowlisted, so the system-directory rule does not
protect it; `/usr/share` is protected by the rule; on Linux with no
project markers the nested `node_modules` is moreover fully scannable. -/
theorem C4_system_rule_cache_exception_witness :
    ((PROTECTED_PATTERNS.any fun prot =>
        matchesProtected ["usr", "local", "lib", "node_modules"] prot) = true ∧
      systemDirRule ["usr", "local", "lib", "node_modules"] = false) ∧
    ((PROTECTED_PATTERNS.any fun prot => matchesProtected ["usr", "share"] prot) = true ∧
      systemDirRule ["usr", "share"] = true) ∧
    is_protected_path ⟨["home", "u"], .linux, fun _ => false⟩
      ["usr", "local", "lib", "node_modules"] true = false :=
  ⟨⟨by decide, by rw [C4_system_rule_cache_exception _ (by decide)]; decide⟩,
   ⟨by decide, by rw [C4_system_rule_cache_exception _ (by decide)]; decide⟩,
   by decide⟩

/-- C10: protection is monotone in the scanning flag: a path protected for
scanning is also protected for deletion, since `for_scanning = true` only
disables the project-marker rule. -/
theorem C10_protection_monotone (ctx : SafetyCtx) (p : DirPath)
    (h : is_protected_path ctx p true = true) :
    is_protected_path ctx p false = true := by
  unfold is_protected_path at h ⊢
  simp only [Bool.or_eq_true, Bool.and_eq_true, Bool.not_true, Bool.not_false,
    Bool.false_eq_true, false_and, or_false, true_and] at h ⊢
  tauto

/-- C10 (witness): `/etc` is protected for scanning on Linux, hence also for
deletion. -/
theorem C10_protection_monotone_witness :
    is_protected_path ⟨["home", "u"], .linux, fun _ => false⟩ ["etc"] true = true ∧
      is_protected_path ⟨["home", "u"], .linux, fun _ => false⟩ ["etc"] false = true :=
  ⟨by decide, C10_protection_monotone _ _ (by decide)⟩

/-! ### Claims C3 and C6: the depth-0 root test and keep/delete selection -/

/-- C3 (amended): at recursion depth 0, `collect_pattern_matches` (the
walker used by the cache and package scanners) tests the unprotected root
itself against the registry and, on a match, records it and stops without
enumerating any child: the result is the same for every tree node. -/
theorem C3_root_match_stops (ctx : SafetyCtx) (pm : DirPath → Option BloatPattern)
    (path : DirPath) (node : FSNode) (max_depth : ℕ) (pat : BloatPattern)
    (hprot : is_protected_path ctx path true = false)
    (hmatch : pm path = some pat) :
    collect_pattern_matches ctx pm path node 0 max_depth = ([(path, pat)], []) := by
  rw [collect_pattern_matches.eq_def, hprot]
  simp [hmatch]

/-- C3 (witness): scanning a `node_modules` directory directly records the
root itself and stops. -/
theorem C3_root_match_stops_witness :
    is_protected_path ctxLinux ["home", "u", "proj", "node_modules"] true = false ∧
    collect_pattern_matches ctxLinux
      (fun p => match_patterns noRM p (get_all_patterns noEX))
      ["home", "u", "proj", "node_modules"]
      (.dir "node_modules" true (fsList [.dir "foo" true (fsList []) false]) false)
      0 3 = ([(["home", "u", "proj", "node_modules"], nodeModulesPattern)], []) :=
  ⟨by decide,
   C3_root_match_stops _ _ _ _ _ nodeModulesPattern (by decide) (by rfl)⟩

/-- C3 (counterexample): `Scanner._collect_matches` does not implement the
depth-0 root test: on a root that itself matches the registry (an
unprotected `node_modules` with one non-matching child), it enumerates the
children and records nothing. -/
theorem C3_scanner_skips_root :
    (match_patterns noRM ["home", "u", "proj", "node_modules"]
        (get_all_patterns noEX)).map BloatPattern.name = some "node_modules" ∧
    is_protected_path ctxLinux ["home", "u", "proj", "node_modules"] true = false ∧
    (scannerCollectMatches ctxLinux
        (fun p => match_patterns noRM p (get_all_patterns noEX))
        ["home", "u", "proj", "node_modules"]
        (.dir "node_modules" true (fsList [.dir "foo" true (fsList []) false]) false)
        0 5).1.map (fun pr => (pr.1, pr.2.name)) = [] ∧
    (scannerCollectMatches ctxLinux
        (fun p => match_patterns noRM p (get_all_patterns noEX))
        ["home", "u", "proj", "node_modules"]
        (.dir "node_modules" true (fsList [.dir "foo" true (fsList []) false]) false)
        0 5).2 = [] :=
  ⟨by decide, by decide, by decide, by decide⟩

/-- Helper: a fold whose step always returns one of its arguments picks an
element of `x :: xs`. -/
theorem foldl_choice_mem (f : DuplicateFile → DuplicateFile → DuplicateFile)
    (h : ∀ a b, f a b = a ∨ f a b = b) :
    ∀ (xs : List DuplicateFile) (x : DuplicateFile), xs.foldl f x ∈ x :: xs := by
  intro xs
  induction xs with
  | nil => intro x; simp
  | cons y ys ih =>
    intro x
    rw [List.foldl_cons]
    rcases List.mem_cons.mp (ih (f x y)) with h1 | h1
    · rw [h1]
      rcases h x y with he | he <;> rw [he] <;> simp
    · exact List.mem_cons_of_mem _ (List.mem_cons_of_mem _ h1)

/-- Helper: Python `min(key)` returns a member. -/
theorem pyMinBy_mem (key : DuplicateFile → ℤ) (x : DuplicateFile)
    (xs : List DuplicateFile) : pyMinBy key x xs ∈ x :: xs :=
  foldl_choice_mem _
    (fun a b => by
      by_cases hc : key b < key a
      · right; simp [hc]
      · left; simp [hc]) xs x

/-- Helper: Python `max(key)` returns a member. -/
theorem pyMaxBy_mem (key : DuplicateFile → ℤ) (x : DuplicateFile)
    (xs : List DuplicateFile) : pyMaxBy key x xs ∈ x :: xs :=
  foldl_choice_mem _
    (fun a b => by
      by_cases hc : key a < key b
      · right; simp [hc]
      · left; simp [hc]) xs x

/-- Helper: a kept file is a member of its group. -/
theorem get_keep_file_mem (g : DuplicateGroup) (s : KeepStrategy) (keep : DuplicateFile)
    (h : g.get_keep_file s = some keep) : keep ∈ g.files := by
  unfold DuplicateGroup.get_keep_file at h
  cases hf : g.files with
  | nil => rw [hf] at h; exact absurd h (by simp)
  | cons x xs =>
    rw [hf] at h
    cases s with
    | first =>
      simp only [Option.some.injEq] at h
      rw [← h]; exact List.mem_cons_self x xs
    | shortest =>
      simp only [Option.some.injEq] at h
      rw [← h]; exact pyMinBy_mem _ x xs
    | oldest =>
      simp only [Option.some.injEq] at h
      rw [← h]; exact pyMinBy_mem _ x xs
    | newest =>
      simp only [Option.some.injEq] at h
      rw [← h]; exact pyMaxBy_mem _ x xs

/-- Helper: on a nonempty group every strategy selects a file. -/
theorem get_keep_file_isSome (g : DuplicateGroup) (s : KeepStrategy)
    (hne : g.files ≠ []) : ∃ keep, g.get_keep_file s = some keep := by
  unfold DuplicateGroup.get_keep_file
  cases hf : g.files with
  | nil => exact absurd hf hne
  | cons x xs => cases s <;> simp

/-- C6 (counterexample): removal filters by path equality, so a group whose
members share a path fails the partition property: with two files at the
same path and distinct mtimes, the keep/delete split loses the second file. -/
theorem C6_keep_delete_counterexample :
    DuplicateGroup.get_keep_file ⟨"h", 5, [⟨["a"], 5, 1⟩, ⟨["a"], 5, 2⟩]⟩ .first =
      some ⟨["a"], 5, 1⟩ ∧
    DuplicateGroup.get_duplicates_to_remove ⟨"h", 5, [⟨["a"], 5, 1⟩, ⟨["a"], 5, 2⟩]⟩ .first =
      some [] ∧
    (⟨["a"], 5, 2⟩ : DuplicateFile) ∈
      (DuplicateGroup.mk "h" 5 [⟨["a"], 5, 1⟩, ⟨["a"], 5, 2⟩]).files ∧
    ((⟨["a"], 5, 2⟩ : DuplicateFile) ∉ ([] : List DuplicateFile) ∧
      (⟨["a"], 5, 2⟩ : DuplicateFile) ≠ ⟨["a"], 5, 1⟩) :=
  ⟨by decide, by decide, by decide, by decide, by decide⟩

/-- C6 (amended): for groups whose members have pairwise distinct paths
(true of every group the duplicate scan produces, which records each
filesystem path once), the delete list and the kept file partition the
group: together they are exactly the files, they are disjoint, and the
delete list preserves the original relative order. -/
theorem C6_keep_delete_partition (g : DuplicateGroup) (s : KeepStrategy)
    (hne : g.files ≠ []) (hnd : (g.files.map DuplicateFile.path).Nodup) :
    ∃ keep remove, g.get_keep_file s = some keep ∧
      g.get_duplicates_to_remove s = some remove ∧
      keep ∈ g.files ∧
      (∀ f, f ∈ g.files ↔ (f ∈ remove ∨ f = keep)) ∧
      keep ∉ remove ∧
      remove.Sublist g.files := by
  obtain ⟨keep, hk⟩ := get_keep_file_isSome g s hne
  have hkm : keep ∈ g.files := get_keep_file_mem g s keep hk
  refine ⟨keep, g.files.filter (fun f => !(f.path == keep.path)), hk, ?_, hkm, ?_, ?_, ?_⟩
  · unfold DuplicateGroup.get_duplicates_to_remove
    rw [hk]
    rfl
  · intro f
    constructor
    · intro hf
      by_cases hp : f.path = keep.path
      · right
        exact List.inj_on_of_nodup_map hnd hf hkm hp
      · left
        rw [List.mem_filter]
        exact ⟨hf, by simp [hp]⟩
    · rintro (hf | rfl)
      · exact (List.mem_filter.mp hf).1
      · exact hkm
  · intro hcon
    have := (List.mem_filter.mp hcon).2
    simp at this
  · exact List.filter_sublist _

/-- C6 (witness): the partition property applied to a concrete three-member
group with distinct paths under the `oldest` strategy. -/
theorem C6_keep_delete_partition_witness :
    ((⟨"h1", 1024, [⟨["r", "a.txt"], 1024, 10⟩, ⟨["r", "b.txt"], 1024, 20⟩,
        ⟨["r", "c", "d.txt"], 1024, 5⟩]⟩ : DuplicateGroup).files ≠ [] ∧
      ((⟨"h1", 1024, [⟨["r", "a.txt"], 1024, 10⟩, ⟨["r", "b.txt"], 1024, 20⟩,
        ⟨["r", "c", "d.txt"], 1024, 5⟩]⟩ : DuplicateGroup).files.map
          DuplicateFile.path).Nodup) ∧
    (∃ keep remove,
      (⟨"h1", 1024, [⟨["r", "a.txt"], 1024, 10⟩, ⟨["r", "b.txt"], 1024, 20⟩,
        ⟨["r", "c", "d.txt"], 1024, 5⟩]⟩ : DuplicateGroup).get_keep_file .oldest =
          some keep ∧
      (⟨"h1", 1024, [⟨["r", "a.txt"], 1024, 10⟩, ⟨["r", "b.txt"], 1024, 20⟩,
        ⟨["r", "c", "d.txt"], 1024, 5⟩]⟩ : DuplicateGroup).get_duplicates_to_remove
          .oldest = some remove ∧
      keep ∈ (⟨"h1", 1024, [⟨["r", "a.txt"], 1024, 10⟩, ⟨["r", "b.txt"], 1024, 20⟩,
        ⟨["r", "c", "d.txt"], 1024, 5⟩]⟩ : DuplicateGroup).files ∧
      (∀ f, f ∈ (⟨"h1", 1024, [⟨["r", "a.txt"], 1024, 10⟩, ⟨["r", "b.txt"], 1024, 20⟩,
        ⟨["r", "c", "d.txt"], 1024, 5⟩]⟩ : DuplicateGroup).files ↔
          (f ∈ remove ∨ f = keep)) ∧
      keep ∉ remove ∧
      remove.Sublist (⟨"h1", 1024, [⟨["r", "a.txt"], 1024, 10⟩, ⟨["r", "b.txt"], 1024, 20⟩,
        ⟨["r", "c", "d.txt"], 1024, 5⟩]⟩ : DuplicateGroup).files) :=
  ⟨⟨by decide, by decide⟩,
   C6_keep_delete_partition _ .oldest (by decide) (by decide)⟩

/-! ### Claim C8: the parallel-map contract -/

/-- Helper: indexing a list by its full index range reproduces it. -/
theorem filterMap_get_range (l : List α) :
    (List.range l.length).filterMap (fun i => l.get? i) = l := by
  induction l with
  | nil => rfl
  | cons a t ih =>
    rw [List.length_cons, List.range_succ_eq_map, List.filterMap_cons]
    simp only [List.get?_cons_zero]
    rw [List.filterMap_map]
    have : (fun i => (a :: t).get? i) ∘ (fun i => i + 1) = fun i => t.get? i := by
      funext i
      simp [List.get?_cons_succ]
    rw [this, ih]

/-- Helper: any completion schedule yields a permutation of the items. -/
theorem applySchedule_perm (items : List α) (sched : List ℕ) :
    (applySchedule items sched).Perm items := by
  unfold applySchedule
  split
  · rename_i hp
    have h1 := hp.filterMap (fun i => items.get? i)
    rw [filterMap_get_range items] at h1
    exact h1
  · exact List.Perm.refl items

/-- C8: `parallel_map` yields exactly one `(item, result, error)` triple per
input item, under every completion schedule: the multiset of triples equals
the per-item evaluations, a success yields `(item, fn item, none)`, a raise
yields `(item, none, exception)`, and one item's failure leaves the rest
intact; with parallelism disabled or fewer than two items the output is
sequential in input order, as is `parallel_map_ordered` always. -/
theorem C8_parallel_map_per_item (f : α → Except ε β) (items : List α)
    (cfg : ParallelConfig) (sched : List ℕ) :
    (parallel_map f items cfg sched).Perm (items.map (runItem f)) ∧
    (∀ a r e, (a, r, e) ∈ parallel_map f items cfg sched →
      (∃ b, f a = .ok b ∧ r = some b ∧ e = none) ∨
      (∃ err, f a = .error err ∧ r = none ∧ e = some err)) ∧
    (cfg.enabled = false ∨ items.length < MIN_PARALLEL_ITEMS →
      parallel_map f items cfg sched = items.map (runItem f)) ∧
    parallel_map_ordered f items cfg = items.map (runItem f) := by
  have hperm : (parallel_map f items cfg sched).Perm (items.map (runItem f)) := by
    unfold parallel_map
    split
    · exact List.Perm.refl _
    · exact (applySchedule_perm items sched).map (runItem f)
  refine ⟨hperm, ?_, ?_, rfl⟩
  · intro a r e hmem
    have := hperm.mem_iff.mp hmem
    obtain ⟨a', _, heq⟩ := List.mem_map.mp this
    unfold runItem at heq
    cases hfa : f a' with
    | ok b =>
      rw [hfa] at heq
      simp only [Prod.mk.injEq] at heq
      obtain ⟨ha, hr, he⟩ := heq
      exact Or.inl ⟨b, ha ▸ hfa, hr.symm, he.symm⟩
    | error err =>
      rw [hfa] at heq
      simp only [Prod.mk.injEq] at heq
      obtain ⟨ha, hr, he⟩ := heq
      exact Or.inr ⟨err, ha ▸ hfa, hr.symm, he.symm⟩
  · intro h
    unfold parallel_map
    rw [if_pos]
    rcases h with h | h
    · simp [h]
    · simp [h]

/-- C8 (witness): with parallelism disabled, a failing first item still
leaves the second item's result intact, sequentially in input order. -/
theorem C8_parallel_map_per_item_witness :
    ((⟨false, 4⟩ : ParallelConfig).enabled = false ∨
      ([10, 20] : List ℕ).length < MIN_PARALLEL_ITEMS) ∧
    parallel_map (fun n : ℕ => if n = 10 then (Except.error "x" : Except String ℕ)
        else .ok n) [10, 20] ⟨false, 4⟩ [] =
      [10, 20].map (runItem (fun n : ℕ =>
        if n = 10 then (Except.error "x" : Except String ℕ) else .ok n)) :=
  ⟨Or.inl rfl, (C8_parallel_map_per_item _ _ _ _).2.2.1 (Or.inl rfl)⟩

/-! ### Claims C5, C7 and C9: result invariants of the scan pipelines -/

/-- Helper: adding a file of the keyed size preserves the hash-group
invariant (group size equals its key's size, members match the group). -/
theorem hashGroupsAdd_inv (m : List ((ℕ × String) × DuplicateGroup)) (size : ℕ)
    (h : String) (f : DuplicateFile) (hf : f.size_bytes = size)
    (hm : ∀ pr ∈ m, pr.2.size_bytes = pr.1.1 ∧
      ∀ x ∈ pr.2.files, x.size_bytes = pr.2.size_bytes) :
    ∀ pr ∈ hashGroupsAdd m size h f, pr.2.size_bytes = pr.1.1 ∧
      ∀ x ∈ pr.2.files, x.size_bytes = pr.2.size_bytes := by
  induction m with
  | nil =>
    intro pr hpr
    simp only [hashGroupsAdd, List.mem_singleton] at hpr
    subst hpr
    exact ⟨rfl, by intro x hx; simp only [List.mem_singleton] at hx; subst hx; exact hf⟩
  | cons kg rest ih =>
    intro pr hpr
    obtain ⟨hk, hfiles⟩ := hm kg (List.mem_cons_self kg rest)
    simp only [hashGroupsAdd] at hpr
    split at hpr
    · rename_i heq
      rcases List.mem_cons.mp hpr with h1 | h1
      · subst h1
        refine ⟨hk, ?_⟩
        intro x hx
        rcases List.mem_append.mp hx with h2 | h2
        · exact hfiles x h2
        · simp only [List.mem_singleton] at h2
          subst h2
          rw [hf, hk, heq]
      · exact hm pr (List.mem_cons_of_mem kg h1)
    · rcases List.mem_cons.mp hpr with h1 | h1
      · subst h1; exact ⟨hk, hfiles⟩
      · exact ih (fun q hq => hm q (List.mem_cons_of_mem kg hq)) pr h1

/-- Helper: the phase-2 hashing fold preserves the hash-group invariant. -/
theorem hashFold_inv (hashFn : DirPath → Option String) (mtimeFn : DirPath → ℤ)
    (cs : List (ℕ × DirPath)) :
    ∀ hg, (∀ pr ∈ hg, pr.2.size_bytes = pr.1.1 ∧
        ∀ x ∈ pr.2.files, x.size_bytes = pr.2.size_bytes) →
      ∀ pr ∈ cs.foldl
        (fun hg c =>
          match hashFn c.2 with
          | none => hg
          | some h => hashGroupsAdd hg c.1 h ⟨c.2, c.1, mtimeFn c.2⟩)
        hg,
        pr.2.size_bytes = pr.1.1 ∧
          ∀ x ∈ pr.2.files, x.size_bytes = pr.2.size_bytes := by
  induction cs with
  | nil => intro hg hin; simpa using hin
  | cons c rest ih =>
    intro hg hin
    rw [List.foldl_cons]
    apply ih
    cases hh : hashFn c.2 with
    | none => simpa [hh] using hin
    | some h =>
      simp only [hh]
      exact hashGroupsAdd_inv hg c.1 h _ rfl hin

/-- C5: every group of a duplicate-scan result has at least two member
files (size buckets and (size, hash) groups with fewer than two members
are discarded), and every member's size equals the group's size. -/
theorem C5_duplicate_group_invariants (ctx : SafetyCtx) (min_size : ℕ)
    (hashFn : DirPath → Option String) (mtimeFn : DirPath → ℤ)
    (root : DirPath) (node : FSNode) :
    ∀ g ∈ (DuplicateScanner.scan ctx min_size hashFn mtimeFn root node).groups,
      2 ≤ g.files.length ∧ ∀ f ∈ g.files, f.size_bytes = g.size_bytes := by
  intro g hg
  simp only [DuplicateScanner.scan] at hg
  split at hg
  · simp at hg
  · simp only [List.mem_insertionSort, List.mem_filter, decide_eq_true_eq] at hg
    obtain ⟨hmem, hlen⟩ := hg
    refine ⟨hlen, ?_⟩
    obtain ⟨pr, hpr, hsnd⟩ := List.mem_map.mp hmem
    have := hashFold_inv hashFn mtimeFn _ [] (by simp) pr hpr
    intro f hfm
    rw [← hsnd]
    exact (this.2 f (by rw [hsnd]; exact hfm))

/-- C5 (witness): the invariants applied to the triple-duplicate group of a
concrete scan. -/
theorem C5_duplicate_group_invariants_witness :
    (⟨"h1", 1024,
      [⟨["r", "a.txt"], 1024, 10⟩, ⟨["r", "sub", "b.txt"], 1024, 20⟩,
       ⟨["r", "c.txt"], 1024, 30⟩]⟩ : DuplicateGroup) ∈
      (DuplicateScanner.scan ctxLinux 0 dupHashOracle dupMtimeOracle ["r"]
        dupTreeExample).groups ∧
    (2 ≤ ([⟨["r", "a.txt"], 1024, 10⟩, ⟨["r", "sub", "b.txt"], 1024, 20⟩,
       ⟨["r", "c.txt"], 1024, 30⟩] : List DuplicateFile).length ∧
      ∀ f ∈ ([⟨["r", "a.txt"], 1024, 10⟩, ⟨["r", "sub", "b.txt"], 1024, 20⟩,
       ⟨["r", "c.txt"], 1024, 30⟩] : List DuplicateFile), f.size_bytes = 1024) :=
  ⟨by decide,
   C5_duplicate_group_invariants ctxLinux 0 dupHashOracle dupMtimeOracle ["r"]
     dupTreeExample
     ⟨"h1", 1024,
      [⟨["r", "a.txt"], 1024, 10⟩, ⟨["r", "sub", "b.txt"], 1024, 20⟩,
       ⟨["r", "c.txt"], 1024, 30⟩]⟩ (by decide)⟩

/-- C9: scan results are sorted non-increasingly by size with the total
equal to the sum of the sizes; duplicate results are sorted
non-increasingly by wasted bytes with the total equal to the sum, and a
group's wasted bytes are its size times (file count minus one). -/
theorem C9_results_sorted_and_totaled :
    (∀ (ctx : SafetyCtx) (rm : String → String → Bool) (ex : DirPath → Bool)
      (min_size : ℕ) (sizeFn : DirPath → ℕ × ℕ) (root : DirPath) (node : FSNode)
      (deep : Bool),
      (Scanner.scan ctx rm ex min_size sizeFn root node deep).targets.Pairwise
        (fun a b => b.size_bytes ≤ a.size_bytes) ∧
      (Scanner.scan ctx rm ex min_size sizeFn root node deep).total_size =
        ((Scanner.scan ctx rm ex min_size sizeFn root node deep).targets.map
          BloatTarget.size_bytes).sum) ∧
    (∀ (ctx : SafetyCtx) (min_size : ℕ) (hashFn : DirPath → Option String)
      (mtimeFn : DirPath → ℤ) (root : DirPath) (node : FSNode),
      (DuplicateScanner.scan ctx min_size hashFn mtimeFn root node).groups.Pairwise
        (fun a b => b.wasted_bytes ≤ a.wasted_bytes) ∧
      (DuplicateScanner.scan ctx min_size hashFn mtimeFn root node).total_wasted =
        ((DuplicateScanner.scan ctx min_size hashFn mtimeFn root node).groups.map
          DuplicateGroup.wasted_bytes).sum) ∧
    (∀ g : DuplicateGroup,
      g.wasted_bytes = (g.size_bytes : ℤ) * ((g.files.length : ℤ) - 1)) := by
  refine ⟨?_, ?_, fun g => rfl⟩
  · intro ctx rm ex min_size sizeFn root node deep
    haveI : IsTotal BloatTarget (fun a b => b.size_bytes ≤ a.size_bytes) :=
      ⟨fun a b => le_total b.size_bytes a.size_bytes⟩
    haveI : IsTrans BloatTarget (fun a b => b.size_bytes ≤ a.size_bytes) :=
      ⟨fun _ _ _ h1 h2 => le_trans h2 h1⟩
    simp only [Scanner.scan]
    split <;> split
    all_goals
      first
        | exact ⟨List.Pairwise.nil, rfl⟩
        | exact ⟨List.sorted_insertionSort _ _, rfl⟩
  · intro ctx min_size hashFn mtimeFn root node
    haveI : IsTotal DuplicateGroup (fun a b => b.wasted_bytes ≤ a.wasted_bytes) :=
      ⟨fun a b => le_total b.wasted_bytes a.wasted_bytes⟩
    haveI : IsTrans DuplicateGroup (fun a b => b.wasted_bytes ≤ a.wasted_bytes) :=
      ⟨fun _ _ _ h1 h2 => le_trans h2 h1⟩
    simp only [DuplicateScanner.scan]
    split
    · exact ⟨List.Pairwise.nil, rfl⟩
    · exact ⟨List.sorted_insertionSort _ _, rfl⟩

/-- Helper: every target `Scanner.scan` emits passed the positivity,
pattern-minimum and scanner-minimum checks of its phase-2 filter. -/
theorem scanner_targets_thresholds (ctx : SafetyCtx) (rm : String → String → Bool)
    (ex : DirPath → Bool) (min_size : ℕ) (sizeFn : DirPath → ℕ × ℕ)
    (root : DirPath) (node : FSNode) (deep : Bool) :
    ∀ t ∈ (Scanner.scan ctx rm ex min_size sizeFn root node deep).targets,
      0 < t.size_bytes ∧ t.pattern.min_size ≤ t.size_bytes ∧
        min_size ≤ t.size_bytes := by
  intro t ht
  simp only [Scanner.scan] at ht
  split at ht <;> split at ht
  · exact absurd ht (by simp)
  · obtain ⟨pr, hpr, hsome⟩ := List.mem_filterMap.mp ((List.mem_insertionSort _).mp ht)
    split at hsome
    · rename_i hcond
      obtain rfl : _ = t := by injection hsome
      exact ⟨hcond.1, hcond.2.1, hcond.2.2⟩
    · exact absurd hsome (by simp)
  · exact absurd ht (by simp)
  · obtain ⟨pr, hpr, hsome⟩ := List.mem_filterMap.mp ((List.mem_insertionSort _).mp ht)
    split at hsome
    · rename_i hcond
      obtain rfl : _ = t := by injection hsome
      exact ⟨hcond.1, hcond.2.1, hcond.2.2⟩
    · exact absurd hsome (by simp)

mutual
/-- Helper: every target the cache scanner's recursive walk emits passed
the `size >= matched.min_size` check. -/
theorem cacheScanSubdir_min (ctx : SafetyCtx) (pm : DirPath → Option BloatPattern)
    (sizeFn : DirPath → ℕ × ℕ) (path : DirPath) (node : FSNode) (depth max_depth : ℕ) :
    ∀ t ∈ (cacheScanSubdir ctx pm sizeFn path node depth max_depth).1,
      t.pattern.min_size ≤ t.size_bytes := by
  cases node with
  | file nm sz h mt link =>
    intro t ht
    rw [cacheScanSubdir.eq_def] at ht
    split at ht
    · simp at ht
    · simp at ht
  | dir nm readable entries link =>
    intro t ht
    rw [cacheScanSubdir.eq_def] at ht
    split at ht
    · simp at ht
    · simp only at ht
      split at ht
      · exact cacheScanChildren_min ctx pm sizeFn path entries depth max_depth t ht
      · simp at ht

/-- Helper: the child-loop counterpart of `cacheScanSubdir_min`. -/
theorem cacheScanChildren_min (ctx : SafetyCtx) (pm : DirPath → Option BloatPattern)
    (sizeFn : DirPath → ℕ × ℕ) (path : DirPath) (l : FSList) (depth max_depth : ℕ) :
    ∀ t ∈ (cacheScanSubdirChildren ctx pm sizeFn path l depth max_depth).1,
      t.pattern.min_size ≤ t.size_bytes := by
  cases l with
  | nil =>
    intro t ht
    rw [cacheScanSubdirChildren.eq_def] at ht
    simp at ht
  | cons e rest =>
    intro t ht
    rw [cacheScanSubdirChildren.eq_def] at ht
    simp only at ht
    rcases List.mem_append.mp ht with h1 | h1
    · cases e with
      | file nm2 sz2 h2 mt2 link2 => simp at h1
      | dir nm2 readable2 entries2 link2 =>
        simp only at h1
        split at h1
        · simp at h1
        · split at h1
          · simp at h1
          · rcases hpm : pm (path ++ [nm2]) with _ | matched
            · rw [hpm] at h1
              simp only [Option.elim] at h1
              exact cacheScanSubdir_min ctx pm sizeFn (path ++ [nm2])
                (.dir nm2 readable2 entries2 link2) (depth + 1) max_depth t h1
            · rw [hpm] at h1
              simp only [Option.elim] at h1
              split at h1
              · rename_i hms
                simp only [List.mem_singleton] at h1
                subst h1
                exact hms
              · simp at h1
    · exact cacheScanChildren_min ctx pm sizeFn path rest depth max_depth t h1
end

/-- Helper: every target of `_scan_cache_root` passed the pattern-minimum
check. -/
theorem cacheScanRoot_min (ctx : SafetyCtx) (pm : DirPath → Option BloatPattern)
    (sizeFn : DirPath → ℕ × ℕ) (root : DirPath) (node : FSNode) :
    ∀ t ∈ (cacheScanRoot ctx pm sizeFn root node).1,
      t.pattern.min_size ≤ t.size_bytes := by
  intro t ht
  unfold cacheScanRoot at ht
  split at ht
  · simp at ht
  · split at ht
    · rename_i matched hpm
      simp only [] at ht
      split at ht
      · rename_i hms
        simp only [List.mem_singleton] at ht
        subst ht
        exact hms
      · simp at ht
    · split at ht
      · simp at ht
      · split at ht
        · exact cacheScanChildren_min ctx pm sizeFn root _ 0 3 t ht
        · simp at ht

/-- C7 (amended): every target of `Scanner.scan` has a positive size that
meets both the matched pattern's minimum and the scanner's caller-supplied
minimum; targets of the cache scanner's walking core are only guaranteed
to meet the matched pattern's own minimum (it applies no positivity check
and receives no caller-level minimum). -/
theorem C7_size_thresholds :
    (∀ (ctx : SafetyCtx) (rm : String → String → Bool) (ex : DirPath → Bool)
      (min_size : ℕ) (sizeFn : DirPath → ℕ × ℕ) (root : DirPath) (node : FSNode)
      (deep : Bool),
      ∀ t ∈ (Scanner.scan ctx rm ex min_size sizeFn root node deep).targets,
        0 < t.size_bytes ∧ t.pattern.min_size ≤ t.size_bytes ∧
          min_size ≤ t.size_bytes) ∧
    (∀ (ctx : SafetyCtx) (pm : DirPath → Option BloatPattern)
      (sizeFn : DirPath → ℕ × ℕ) (root : DirPath) (node : FSNode),
      ∀ t ∈ (cacheScanRoot ctx pm sizeFn root node).1,
        t.pattern.min_size ≤ t.size_bytes) :=
  ⟨scanner_targets_thresholds, cacheScanRoot_min⟩

/-- C7 (counterexample): the cache scanner records a size-0 target: an
empty directory named `Cache` matches the Chrome Cache pattern (whose
minimum size is 0), so a `BloatTarget` with `size_bytes = 0` enters the
result, contradicting the claimed strict positivity. -/
theorem C7_cache_scanner_zero_size :
    get_directory_size (.dir "Cache" true (fsList []) false) = (0, 0) ∧
    ((cacheScanRoot ctxLinux
        (fun p => match_patterns noRM p get_system_cache_patterns)
        (fun _ => get_directory_size (.dir "Cache" true (fsList []) false))
        ["home", "u", "x", "Cache"]
        (.dir "Cache" true (fsList []) false)).1.map
      (fun t => (t.pattern.name, t.size_bytes)) = [("Chrome Cache", 0)]) ∧
    ¬(0 < (0 : ℕ)) :=
  ⟨by decide, by decide, by decide⟩

/-- C7 (witness): a concrete scan's `node_modules` target satisfies all
three bounds. -/
theorem C7_size_thresholds_witness :
    (⟨["home", "u", "proj", "node_modules"], nodeModulesPattern, 2000000, 5⟩ : BloatTarget) ∈
      (Scanner.scan ctxLinux noRM noEX 0 scanSizeOracle ["home", "u", "proj"]
        scanTreeExample false).targets ∧
    (0 < 2000000 ∧ nodeModulesPattern.min_size ≤ 2000000 ∧ 0 ≤ 2000000) := by
  have h : (Scanner.scan ctxLinux noRM noEX 0 scanSizeOracle ["home", "u", "proj"]
      scanTreeExample false).targets =
    [⟨["home", "u", "proj", "node_modules"], nodeModulesPattern, 2000000, 5⟩,
     ⟨["home", "u", "proj", "__pycache__"], pycachePattern, 1000, 2⟩] := by rfl
  have hmem : (⟨["home", "u", "proj", "node_modules"], nodeModulesPattern, 2000000, 5⟩ :
      BloatTarget) ∈
      (Scanner.scan ctxLinux noRM noEX 0 scanSizeOracle ["home", "u", "proj"]
        scanTreeExample false).targets := by
    rw [h]
    exact List.mem_cons_self _ _
  exact ⟨hmem,
    C7_size_thresholds.1 ctxLinux noRM noEX 0 scanSizeOracle ["home", "u", "proj"]
      scanTreeExample false _ hmem⟩
